import Mathlib

/-!
# Verification of a Redis-clone server (Python) against its specification

Shallow embedding of the repository sources:
  * `app/resp_encoder.py`  — RESP2 encoder (`encode_*` functions below)
  * `app/resp_parser.py`   — RESP2 parser (`RESPParser`) and the legacy
    command dispatcher `parse_command` used by `app/main.py`
  * `app/commands.py`      — per-command argument parsers (`Commands` namespace)
  * `app/handlers.py`      — command handlers (`Handlers` namespace for the
    handler variants specific to that file)
  * `app/main.py`          — connection loop and its duplicated handlers
    (`Serv` namespace for the variants specific to that file)
  * `app/storage.py`       — the shared keyspace `store` (the `Store` type)

Bytes are modelled as `Nat` (values < 256 in every reachable state), Python
`str` as Lean `String`, Python `int` as `Int`.  Python exceptions are modelled
with the `PyErr` type: every handler returns the (possibly mutated) store
together with `Except PyErr reply`, so that "raises without mutating" is a
provable property of where the exception occurs, not an artifact of the model.
-/

/-- A single-quote character (ASCII 39), used when mirroring Python f-strings
such as `f"unknown command '{name}'"`. -/
def sglq : String := String.mk [Char.ofNat 39]

/-- Carriage-return / line-feed pair, the RESP frame terminator. -/
def crlf : List Nat := [13, 10]

/-! ## Decimal representations (model of Python `str(int)` / `int(str)`) -/

/-- Fuel-driven helper for `natDigits` (structural recursion so that the
kernel can evaluate it; the fuel is irrelevant whenever it exceeds `n`). -/
def natDigitsAux : Nat → Nat → List Char
  | 0, _ => []
  | fuel + 1, n =>
    if n < 10 then [Char.ofNat (48 + n)]
    else natDigitsAux fuel (n / 10) ++ [Char.ofNat (48 + n % 10)]

/-- Decimal digit characters of a natural number, most significant first
(model of CPython's base-10 printing of a non-negative integer). -/
def natDigits (n : Nat) : List Char := natDigitsAux (n + 1) n

/-- Model of Python `str(n)` for `n : Int` (used by the f-strings in the
sources, e.g. `f":{n}\r\n"` and `f"{ms}-{seq}"`). -/
def intStr (n : Int) : String :=
  if n < 0 then String.mk ('-' :: natDigits (-n).toNat)
  else String.mk (natDigits n.toNat)

/-- Model of Python `str(x)` for `x : Optional[int]`: `str(None) == "None"`. -/
def optIntStr : Option Int → String
  | none => "None"
  | some n => intStr n

/-- Model of Python `s.upper()` (character-wise; CPython's full Unicode
mapping agrees with `Char.toUpper` on ASCII, and every command name and
option keyword involved is ASCII). -/
def strUpper (s : String) : String := String.mk (s.data.map Char.toUpper)

/-- Split a character list at every occurrence of `sep` (Python
`s.split(sep)` for a single-character separator: `""` splits to `[""]`,
`"-"` to `["", ""]`). -/
def splitChar (sep : Char) : List Char → List (List Char)
  | [] => [[]]
  | x :: rest =>
    if x = sep then [] :: splitChar sep rest
    else
      match splitChar sep rest with
      | h :: t => (x :: h) :: t
      | [] => [[x]]

/-- Model of Python `s.split(sep)` for a one-character separator. -/
def pySplit (sep : Char) (s : String) : List String :=
  (splitChar sep s.data).map String.mk

/-! ## UTF-8 (model of CPython `str.encode('utf-8')` / `bytes.decode('utf-8')`) -/

/-- UTF-8 encoding of one Unicode scalar value (RFC 3629). -/
def utf8EncodeChar (c : Char) : List Nat :=
  let n := c.toNat
  if n < 0x80 then [n]
  else if n < 0x800 then [0xC0 + n / 0x40, 0x80 + n % 0x40]
  else if n < 0x10000 then
    [0xE0 + n / 0x1000, 0x80 + n / 0x40 % 0x40, 0x80 + n % 0x40]
  else
    [0xF0 + n / 0x40000, 0x80 + n / 0x1000 % 0x40, 0x80 + n / 0x40 % 0x40,
     0x80 + n % 0x40]

/-- Model of Python `s.encode('utf-8')`. -/
def strBytes (s : String) : List Nat := s.data.flatMap utf8EncodeChar

/-- Whether a byte is a UTF-8 continuation byte (`0x80 ≤ b ≤ 0xBF`). -/
def isCont (b : Nat) : Bool := 0x80 ≤ b && b ≤ 0xBF

/-- Decode one multi-byte UTF-8 sequence with lead byte `b1` followed by
`rest` (strict: continuation ranges exclude overlong forms, surrogates and
values above `0x10FFFF`), then continue with `step`. -/
def utf8DecodeMulti (step : List Nat → Option (List Char)) (b1 : Nat)
    (rest : List Nat) : Option (List Char) :=
  if 0xC2 ≤ b1 && b1 ≤ 0xDF then
    match rest with
    | b2 :: rest2 =>
      if isCont b2 then
        (step rest2).map (Char.ofNat ((b1 - 0xC0) * 0x40 + (b2 - 0x80)) :: ·)
      else none
    | _ => none
  else if 0xE0 ≤ b1 && b1 ≤ 0xEF then
    match rest with
    | b2 :: b3 :: rest3 =>
      let lo2 := if b1 = 0xE0 then 0xA0 else 0x80
      let hi2 := if b1 = 0xED then 0x9F else 0xBF
      if (lo2 ≤ b2 && b2 ≤ hi2) && isCont b3 then
        (step rest3).map
          (Char.ofNat ((b1 - 0xE0) * 0x1000 + (b2 - 0x80) * 0x40 + (b3 - 0x80)) :: ·)
      else none
    | _ => none
  else if 0xF0 ≤ b1 && b1 ≤ 0xF4 then
    match rest with
    | b2 :: b3 :: b4 :: rest4 =>
      let lo2 := if b1 = 0xF0 then 0x90 else 0x80
      let hi2 := if b1 = 0xF4 then 0x8F else 0xBF
      if (lo2 ≤ b2 && b2 ≤ hi2) && (isCont b3 && isCont b4) then
        (step rest4).map
          (Char.ofNat ((b1 - 0xF0) * 0x40000 + (b2 - 0x80) * 0x1000 +
            (b3 - 0x80) * 0x40 + (b4 - 0x80)) :: ·)
      else none
    | _ => none
  else none

/-- Fuel-driven strict UTF-8 decoder (each unit of fuel consumes at least
one byte, so fuel exceeding the length never runs out). -/
def utf8DecodeListF : Nat → List Nat → Option (List Char)
  | 0, _ => none
  | _ + 1, [] => some []
  | fuel + 1, b1 :: rest =>
    if b1 < 0x80 then (utf8DecodeListF fuel rest).map (Char.ofNat b1 :: ·)
    else utf8DecodeMulti (utf8DecodeListF fuel) b1 rest

/-- Strict UTF-8 decoder over a byte list: model of CPython
`bytes.decode('utf-8')` (errors='strict'). -/
def utf8DecodeList (l : List Nat) : Option (List Char) :=
  utf8DecodeListF (l.length + 1) l

/-- Model of Python `bs.decode('utf-8')` returning a `str`. -/
def utf8Decode (l : List Nat) : Option String :=
  (utf8DecodeList l).map String.mk

example : utf8Decode (strBytes "héllo") = some "héllo" := by decide
example : utf8Decode [0xFF, 0xFE] = none := by decide
example : utf8Decode [0xC3] = none := by decide
example : intStr (-207) = "-207" := by decide

/-! ## Python value domain of the RESP parser

`RESPParser.parse` returns Python objects: `str` (simple strings, errors and
bulk strings all decode to plain `str`), `int`, `list`, or `None` (null bulk
string, null array, or end of input). -/

/-- Python objects produced by `RESPParser.parse` in `app/resp_parser.py`. -/
inductive PyObj : Type
  | pyStr (s : String)
  | pyInt (n : Int)
  | pyList (l : List PyObj)
  | pyNone
  deriving Repr

open PyObj

mutual

/-- Decidable equality on `PyObj` (written by hand: `deriving` does not
handle the nested `List PyObj`). -/
def PyObj.decEq : (a b : PyObj) → Decidable (a = b)
  | pyStr a, pyStr b =>
    match String.decEq a b with
    | isTrue h => isTrue (h ▸ rfl)
    | isFalse h => isFalse fun hh => h (PyObj.pyStr.inj hh)
  | pyInt a, pyInt b =>
    match Int.decEq a b with
    | isTrue h => isTrue (h ▸ rfl)
    | isFalse h => isFalse fun hh => h (PyObj.pyInt.inj hh)
  | pyNone, pyNone => isTrue rfl
  | pyList a, pyList b =>
    match PyObj.decEqList a b with
    | isTrue h => isTrue (h ▸ rfl)
    | isFalse h => isFalse fun hh => h (PyObj.pyList.inj hh)
  | pyStr _, pyInt _ => isFalse fun h => PyObj.noConfusion h
  | pyStr _, pyList _ => isFalse fun h => PyObj.noConfusion h
  | pyStr _, pyNone => isFalse fun h => PyObj.noConfusion h
  | pyInt _, pyStr _ => isFalse fun h => PyObj.noConfusion h
  | pyInt _, pyList _ => isFalse fun h => PyObj.noConfusion h
  | pyInt _, pyNone => isFalse fun h => PyObj.noConfusion h
  | pyList _, pyStr _ => isFalse fun h => PyObj.noConfusion h
  | pyList _, pyInt _ => isFalse fun h => PyObj.noConfusion h
  | pyList _, pyNone => isFalse fun h => PyObj.noConfusion h
  | pyNone, pyStr _ => isFalse fun h => PyObj.noConfusion h
  | pyNone, pyInt _ => isFalse fun h => PyObj.noConfusion h
  | pyNone, pyList _ => isFalse fun h => PyObj.noConfusion h

/-- Decidable equality on lists of `PyObj`. -/
def PyObj.decEqList : (a b : List PyObj) → Decidable (a = b)
  | [], [] => isTrue rfl
  | [], _ :: _ => isFalse fun h => List.noConfusion h
  | _ :: _, [] => isFalse fun h => List.noConfusion h
  | a :: as, b :: bs =>
    match PyObj.decEq a b, PyObj.decEqList as bs with
    | isTrue h1, isTrue h2 => isTrue (h1 ▸ h2 ▸ rfl)
    | isFalse h1, _ => isFalse fun hh => h1 (List.cons.inj hh).1
    | _, isFalse h2 => isFalse fun hh => h2 (List.cons.inj hh).2

end

instance : DecidableEq PyObj := PyObj.decEq

/-- Python exceptions raised by the modelled code.  Message payloads are kept
only where some code path surfaces them to a client reply (`str(e)`); for the
other kinds the CPython message text is not modelled verbatim. -/
inductive PyErr : Type
  | valueError (msg : String)
  | typeError
  | indexError
  | unicodeError
  | attributeError
  | fuel
  deriving DecidableEq, Repr

/-- Model of Python `str(e)` for a caught exception, as used by
`parse_command`'s `f"parsing error: {str(e)}"`.  `str(IndexError())` raised by
a list subscript is exactly `"list index out of range"`. -/
def errStr : PyErr → String
  | .valueError m => m
  | .typeError => "TypeError"
  | .indexError => "list index out of range"
  | .unicodeError => "UnicodeDecodeError"
  | .attributeError => "AttributeError"
  | .fuel => "fuel"

mutual

/-- Model of Python `repr(x)` restricted to the `PyObj` domain (escaping of
quotes inside strings is not modelled; no claim exercises it). -/
def pyRepr : PyObj → String
  | pyStr s => sglq ++ s ++ sglq
  | pyInt n => intStr n
  | pyNone => "None"
  | pyList l => "[" ++ pyReprSep l ++ "]"

/-- Comma-separated `repr`s of the elements of a Python list. -/
def pyReprSep : List PyObj → String
  | [] => ""
  | [x] => pyRepr x
  | x :: y :: rest => pyRepr x ++ ", " ++ pyReprSep (y :: rest)

end

/-- Model of Python `str(x)` on the `PyObj` domain (`str` is the identity on
strings and agrees with `repr` on the other shapes). -/
def pyStrOf : PyObj → String
  | pyStr s => s
  | pyInt n => intStr n
  | pyNone => "None"
  | pyList l => "[" ++ pyReprSep l ++ "]"

/-- Python `args[i]` on a list: returns the element or raises `IndexError`
(negative subscripts do not occur in the modelled call sites). -/
def pyGet (args : List PyObj) (i : Nat) : Except PyErr PyObj :=
  match args[i]? with
  | some x => .ok x
  | none => .error .indexError

/-- Decimal-digit run parser: `some n` if the (char) list is a non-empty run
of ASCII digits denoting `n`. -/
def digitsVal (l : List Char) : Option Nat :=
  if l.isEmpty then none
  else
    l.foldl (fun acc c =>
      match acc with
      | none => none
      | some n => if 48 ≤ c.toNat && c.toNat ≤ 57 then some (n * 10 + (c.toNat - 48)) else none)
      (some 0)

/-- Model of Python `int(s)` for `s : str`: optional sign followed by digits.
(CPython additionally strips surrounding whitespace and allows `_` digit
separators; no modelled call site receives such input.) -/
def strIntParse (s : String) : Except PyErr Int :=
  let fail : Except PyErr Int :=
    .error (.valueError ("invalid literal for int() with base 10: " ++ sglq ++ s ++ sglq))
  match s.data with
  | '-' :: rest =>
    match digitsVal rest with
    | some n => .ok (-(n : Int))
    | none => fail
  | '+' :: rest =>
    match digitsVal rest with
    | some n => .ok (n : Int)
    | none => fail
  | l =>
    match digitsVal l with
    | some n => .ok (n : Int)
    | none => fail

/-- Model of Python `int(bs)` for `bs : bytes` (as applied by the parser to
the byte content before a CRLF): ASCII sign and digits. -/
def bytesIntParse (bs : List Nat) : Except PyErr Int :=
  strIntParse (String.mk (bs.map Char.ofNat))

/-- Model of Python `int(x)` applied to a parsed RESP element: `int` is the
identity on ints, parses strings, and raises `TypeError` on `None`/lists. -/
def pyIntOf : PyObj → Except PyErr Int
  | pyStr s => strIntParse s
  | pyInt n => .ok n
  | pyNone => .error .typeError
  | pyList _ => .error .typeError

deriving instance DecidableEq for Except

example : strIntParse "-42" = .ok (-42) := by decide
example : pyIntOf (pyStr "0") = .ok 0 := by decide
example : (strIntParse "4a").toOption = none := by decide

/-! ## RESP encoder (`app/resp_encoder.py`) -/

/-- `encode_simple_string(s)`: `f"+{s}\r\n".encode('utf-8')`. -/
def encode_simple_string (s : String) : List Nat :=
  strBytes ("+" ++ s ++ "\r\n")

/-- `encode_error(message)`: `f"-ERR {message}\r\n".encode('utf-8')`.  Note
that the `ERR ` prefix is added unconditionally. -/
def encode_error (message : String) : List Nat :=
  strBytes ("-ERR " ++ message ++ "\r\n")

/-- `encode_integer(n)`: `f":{n}\r\n".encode('utf-8')`. -/
def encode_integer (n : Int) : List Nat :=
  strBytes (":" ++ intStr n ++ "\r\n")

/-- `encode_bulk_string(s)`: `$-1\r\n` for `None`, otherwise
`f"${len(s)}\r\n{s}\r\n".encode('utf-8')`.  Python's `len(s)` counts
characters, not UTF-8 bytes — the length prefix therefore undercounts
non-ASCII payloads. -/
def encode_bulk_string : Option String → List Nat
  | none => strBytes "$-1\r\n"
  | some s => strBytes ("$" ++ String.mk (natDigits s.length) ++ "\r\n" ++ s ++ "\r\n")

/-- `encode_null()`: `$-1\r\n`. -/
def encode_null : List Nat := strBytes "$-1\r\n"

/-- `encode_array(items)` in the form used by every handler call site: the
items are already RESP-encoded byte strings (the `isinstance(item, bytes)`
branch of the source); `None` encodes the null array. -/
def encode_array : Option (List (List Nat)) → List Nat
  | none => strBytes "*-1\r\n"
  | some items =>
    strBytes ("*" ++ String.mk (natDigits items.length) ++ "\r\n") ++ items.flatten

mutual

/-- Top-level RESP encoding of a parser-domain value, composed from the
source encoders exactly as `encode_array`'s per-item dispatch does it:
`str → encode_bulk_string`, `int → encode_integer`, `list → encode_array`,
and `None` at top level via `encode_null`. -/
def encodeVal : PyObj → List Nat
  | pyStr s => encode_bulk_string (some s)
  | pyInt n => encode_integer n
  | pyNone => encode_null
  | pyList l =>
    strBytes ("*" ++ String.mk (natDigits l.length) ++ "\r\n") ++ encodeValList l

/-- Concatenated encodings of the items of an array, as produced by the
`for item in items` loop of `encode_array`. -/
def encodeValList : List PyObj → List Nat
  | [] => []
  | x :: xs => encodeVal x ++ encodeValList xs

end

example : encode_bulk_string (some "hello") = strBytes "$5\r\nhello\r\n" := by decide
example : encode_error ("unknown command " ++ sglq ++ "FOO" ++ sglq) =
    strBytes "-ERR unknown command 'FOO'\r\n" := by decide

/-! ## RESP parser (`class RESPParser` in `app/resp_parser.py`)

The class threads an absolute cursor `self.pos` through `self.data`; the
model passes the remaining suffix `data[pos:]` instead — the two views are
isomorphic (`remaining = data.drop pos`), and every cursor comparison of the
source is translated accordingly (`self.pos >= len(self.data)` becomes
"the suffix is empty", `self.pos + length > len(self.data)` becomes
"`length` exceeds the suffix length", and so on).  Recursion into array
elements is bounded by a fuel parameter that strictly exceeds the nesting
depth of every frame (each nesting level consumes at least four bytes, so
`data.length + 1` fuel is always sufficient); the `.fuel` error is
unreachable on such inputs. -/

namespace RESPParser

/-- `_read_until_crlf`: scan for the first CRLF; return the bytes before it
and the suffix after it, or raise `ValueError("CRLF not found")` when fewer
than two bytes remain without a CRLF (the source loop runs
`while self.pos < len(self.data) - 1`). -/
def read_until_crlf : List Nat → Except PyErr (List Nat × List Nat)
  | b1 :: b2 :: rest =>
    if b1 = 13 ∧ b2 = 10 then .ok ([], rest)
    else
      match read_until_crlf (b2 :: rest) with
      | .ok (content, rem) => .ok (b1 :: content, rem)
      | .error e => .error e
  | _ => .error (.valueError "CRLF not found")

/-- `_parse_simple_string` / `_parse_error` (both return the decoded text). -/
def parse_simple_string (input : List Nat) : Except PyErr (PyObj × List Nat) := do
  let (content, rem) ← read_until_crlf input
  match utf8Decode content with
  | some s => .ok (pyStr s, rem)
  | none => .error .unicodeError

/-- `_parse_integer`. -/
def parse_integer (input : List Nat) : Except PyErr (PyObj × List Nat) := do
  let (content, rem) ← read_until_crlf input
  let n ← bytesIntParse content
  .ok (pyInt n, rem)

/-- `_parse_bulk_string`.  A declared length of `-1` yields the null bulk; a
length exceeding the remaining bytes raises `ValueError("Not enough data for
bulk string")`; the payload is decoded as strict UTF-8; a trailing CRLF is
skipped only when present.  (For a negative declared length other than `-1`
CPython produces an empty payload and moves the cursor backwards; the model
keeps the cursor in place — no well-formed frame, and no input appearing in
a theorem below, reaches that case.) -/
def parse_bulk_string (input : List Nat) : Except PyErr (PyObj × List Nat) := do
  let (content, rem) ← read_until_crlf input
  let length ← bytesIntParse content
  if length = -1 then
    .ok (pyNone, rem)
  else if (rem.length : Int) < length then
    .error (.valueError "Not enough data for bulk string")
  else
    match utf8Decode (rem.take length.toNat) with
    | none => .error .unicodeError
    | some s =>
      let rem2 := rem.drop length.toNat
      let rem3 := match rem2 with
        | 13 :: 10 :: r => r
        | _ => rem2
      .ok (pyStr s, rem3)

/-- Run `count` iterations of the `_parse_array` element loop, threading the
remaining bytes; `step` is the recursive `self.parse()` call. -/
def runMany (step : List Nat → Except PyErr (PyObj × List Nat)) :
    Nat → List Nat → Except PyErr (List PyObj × List Nat)
  | 0, input => .ok ([], input)
  | c + 1, input => do
    let (x, rem) ← step input
    let (xs, rem') ← runMany step c rem
    .ok (x :: xs, rem')

/-- `RESPParser.parse`: at end of input return `None`; otherwise dispatch on
the type byte (`+ - : $ *`), raising `ValueError` on an unknown byte.  An
array header of `-1` is the null array; any other count runs that many
element parses (`range(count)` is empty for a negative count).  The fuel
decreases at each recursion into an array element. -/
def parse : Nat → List Nat → Except PyErr (PyObj × List Nat)
  | 0, _ => .error .fuel
  | fuel + 1, input =>
    match input with
    | [] => .ok (pyNone, [])
    | t :: rest =>
      if t = 43 then parse_simple_string rest
      else if t = 45 then parse_simple_string rest
      else if t = 58 then parse_integer rest
      else if t = 36 then parse_bulk_string rest
      else if t = 42 then do
        let (content, rem) ← read_until_crlf rest
        let count ← bytesIntParse content
        if count = -1 then .ok (pyNone, rem)
        else do
          let (elems, rem') ← runMany (fun q => parse fuel q) count.toNat rem
          .ok (pyList elems, rem')
      else .error (.valueError ("Unknown RESP type: " ++ String.mk [Char.ofNat t]))

/-- `parse_resp(data)`: run the parser on the whole frame and return the
parsed object (the final cursor is discarded). -/
def parse_resp (data : List Nat) : Except PyErr PyObj :=
  (parse (data.length + 1) data).map Prod.fst

example : parse_resp (strBytes "*2\r\n$4\r\nECHO\r\n$5\r\nhello\r\n") =
    .ok (pyList [pyStr "ECHO", pyStr "hello"]) := by decide
example : parse_resp (strBytes "$-1\r\n") = .ok pyNone := by decide
example : parse_resp (strBytes ":-42\r\n") = .ok (pyInt (-42)) := by decide
example : parse_resp (strBytes "+OK\r\n") = .ok (pyStr "OK") := by decide
example : parse_resp [] = .ok pyNone := by decide
example : parse_resp (strBytes "*2\r\n") = .ok (pyList [pyNone, pyNone]) := by decide

end RESPParser

/-! ## Keyspace (`app/storage.py` `store`) and stored value shapes

`store` maps keys to one of:
  * a 2-tuple `(value, expiry)` written by `handle_set` — modelled as `vTup`
    over parser objects (tuple slices produced by `handle_lpop` on such a key
    keep the `vTup` shape);
  * a Python list written by `handle_rpush`/`handle_lpush`/`handle_xadd`,
    whose elements are either parser objects (pushed list elements) or stream
    entry triples `(ms, seq, fields)` — modelled as `vList` over `Elem`.

The asyncio queues (`queues`, `stream_queues`) only drive blocked `BLPOP` /
`XREAD` clients; they never affect `store` or any reply modelled here, so
they are not part of the state. -/

/-- An element of a stored Python list: a parser object, or a stream entry
`(ms, seq, fields)` appended by an XADD handler (`seq` is `None` when
`main.py`'s `handle_xadd` stores an ungenerated sequence). -/
inductive Elem : Type
  | elObj (o : PyObj)
  | elEntry (ms : Int) (seq : Option Int) (fields : List (String × String))
  deriving DecidableEq, Repr

open Elem

/-- A stored value: the string 2-tuple `(value, expiry)`, or a list. -/
inductive Val : Type
  | vTup (t : List PyObj)
  | vList (l : List Elem)
  deriving DecidableEq, Repr

open Val

/-- The keyspace: a Python dict rendered as an association list in insertion
order (first occurrence of a key is the binding). -/
abbrev Store := List (String × Val)

/-- `store.get(k)` / `store[k]` lookup. -/
def storeGet : Store → String → Option Val
  | [], _ => none
  | (k, v) :: rest, key => if k = key then some v else storeGet rest key

/-- `store[k] = v`: replace the binding in place, else append (Python dicts
keep the original insertion position on update). -/
def storeSet : Store → String → Val → Store
  | [], key, val => [(key, val)]
  | (k, v) :: rest, key, val =>
    if k = key then (k, val) :: rest else (k, v) :: storeSet rest key val

/-- `del store[k]`. -/
def storeDel : Store → String → Store
  | [], _ => []
  | (k, v) :: rest, key => if k = key then rest else (k, v) :: storeDel rest key

/-! ### Reply fragments shared by the handlers -/

/-- `encode_bulk_string(x)` applied to an arbitrary parsed object, as the
handlers do for list elements: `len(x)` raises `TypeError` on an `int`;
`None` yields the null bulk; a Python list is measured by `len` and rendered
by `str` inside the f-string. -/
def objBulk : PyObj → Except PyErr (List Nat)
  | pyStr s => .ok (encode_bulk_string (some s))
  | pyNone => .ok encode_null
  | pyInt _ => .error .typeError
  | pyList l =>
    .ok (strBytes ("$" ++ String.mk (natDigits l.length) ++ "\r\n" ++
      pyStrOf (pyList l) ++ "\r\n"))

/-- Python `repr` of a stream entry's field dict, `{'f': 'v', ...}`. -/
def dictRepr (fields : List (String × String)) : String :=
  "\x7b" ++ String.intercalate ", "
    (fields.map fun p => sglq ++ p.1 ++ sglq ++ ": " ++ sglq ++ p.2 ++ sglq) ++ "\x7d"

/-- Python `str` of a stream entry triple `(ms, seq, fields)`. -/
def entryRepr (ms : Int) (seq : Option Int) (fields : List (String × String)) : String :=
  "(" ++ intStr ms ++ ", " ++ optIntStr seq ++ ", " ++ dictRepr fields ++ ")"

/-- `encode_bulk_string(x)` for a stored list element; a stream entry is a
3-tuple, so `len(x) == 3` and the f-string renders its `str`. -/
def elemBulk : Elem → Except PyErr (List Nat)
  | elObj o => objBulk o
  | elEntry ms seq fields =>
    .ok (strBytes ("$3\r\n" ++ entryRepr ms seq fields ++ "\r\n"))

/-- Effectful map over a list in `Except` (the reply-building list
comprehensions `[encode_bulk_string(x) for x in result]`: the first element
that raises aborts the comprehension). -/
def exceptMapList {a b e : Type} (f : a → Except e b) : List a → Except e (List b)
  | [] => .ok []
  | x :: xs =>
    match f x with
    | .error er => .error er
    | .ok y =>
      match exceptMapList f xs with
      | .error er => .error er
      | .ok ys => .ok (y :: ys)

/-- Python list/tuple slice `l[a:b]` for non-negative bounds. -/
def listSlice {α : Type} (l : List α) (a b : Nat) : List α := (l.take b).drop a

/-! ### Handlers shared verbatim by `app/main.py` and `app/handlers.py`
(the `handlers.py` copies additionally feed the asyncio queues, which is
outside the modelled state). -/

/-- `handle_set`: store `(value, now+expiry_ms)` and reply `+OK`.  `now` is
`round(time.time() * 1000)`, passed explicitly. -/
def handle_set (now : Int) (key value : String) (expiry_ms : Option Int)
    (st : Store) : Store × Except PyErr (List Nat) :=
  let expiry : PyObj := match expiry_ms with
    | some m => pyInt (now + m)
    | none => pyNone
  (storeSet st key (vTup [pyStr value, expiry]), .ok (encode_simple_string "OK"))

/-- Python `x < n` for a parsed object against an `int`: only `int`
comparands succeed; `str`/`list`/`None` raise `TypeError`. -/
def pyLtNum (x : PyObj) (n : Int) : Except PyErr Bool :=
  match x with
  | pyInt m => .ok (decide (m < n))
  | _ => .error .typeError

/-- Python `x < n` for a stored list element (`expiry < now` in
`handle_get`): a stream-entry tuple compared to an `int` raises
`TypeError`. -/
def elemLtNum (x : Elem) (n : Int) : Except PyErr Bool :=
  match x with
  | elObj o => pyLtNum o n
  | elEntry _ _ _ => .error .typeError

/-- `handle_get`: `value, expiry = store.get(key, (None, None))`; missing or
`None` value replies null; a past expiry deletes the key and replies null;
otherwise the value is bulk-encoded.  Unpacking a stored sequence of length
other than two raises `ValueError`; a non-`int` second component raises
`TypeError` at `expiry < now`.  (CPython's message texts are irrelevant: the
connection loop only closes on these exceptions.) -/
def handle_get (now : Int) (key : String) (st : Store) :
    Store × Except PyErr (List Nat) :=
  match storeGet st key with
  | none => (st, .ok encode_null)
  | some (vTup t) =>
    match t with
    | [v0, e] =>
      if v0 = pyNone then (st, .ok encode_null)
      else if e ≠ pyNone then
        match pyLtNum e now with
        | .error er => (st, .error er)
        | .ok true => (storeDel st key, .ok encode_null)
        | .ok false => (st, objBulk v0)
      else (st, objBulk v0)
    | _ => (st, .error (.valueError "unpack"))
  | some (vList l) =>
    match l with
    | [v0, e] =>
      if v0 = elObj pyNone then (st, .ok encode_null)
      else if e ≠ elObj pyNone then
        match elemLtNum e now with
        | .error er => (st, .error er)
        | .ok true => (storeDel st key, .ok encode_null)
        | .ok false => (st, elemBulk v0)
      else (st, elemBulk v0)
    | _ => (st, .error (.valueError "unpack"))

/-- `handle_rpush`: `store[k] = store.get(k, []) + values`.  On a key holding
the string 2-tuple, `tuple + list` raises `TypeError` before any assignment;
otherwise the values are appended and the new length replied. -/
def handle_rpush (list_key : String) (values : List PyObj) (st : Store) :
    Store × Except PyErr (List Nat) :=
  match storeGet st list_key with
  | some (vTup _) => (st, .error .typeError)
  | some (vList l) =>
    let newList := l ++ values.map elObj
    (storeSet st list_key (vList newList), .ok (encode_integer newList.length))
  | none =>
    let newList := values.map elObj
    (storeSet st list_key (vList newList), .ok (encode_integer newList.length))

/-- `handle_lpush`: prepend `reversed(values)`; same `TypeError` as RPUSH on
a string key (`list + tuple` on the reversed-values side). -/
def handle_lpush (list_key : String) (values : List PyObj) (st : Store) :
    Store × Except PyErr (List Nat) :=
  match storeGet st list_key with
  | some (vTup _) => (st, .error .typeError)
  | some (vList l) =>
    let newList := (values.map elObj).reverse ++ l
    (storeSet st list_key (vList newList), .ok (encode_integer newList.length))
  | none =>
    let newList := (values.map elObj).reverse
    (storeSet st list_key (vList newList), .ok (encode_integer newList.length))

/-- `handle_lrange`: normalise `start`/`stop` exactly as the source does
(`start if start >= 0 else max(0, len + start)`, and
`stop + 1 if stop >= 0 else max(0, len + stop + 1)`), slice, and bulk-encode
each element.  A stored string 2-tuple is a sequence too: `len` and slicing
apply to it unchanged. -/
def handle_lrange (list_key : String) (start stop : Int) (st : Store) :
    Store × Except PyErr (List Nat) :=
  let elems : List Elem :=
    match storeGet st list_key with
    | some (vList l) => l
    | some (vTup t) => t.map elObj
    | none => []
  let len : Int := elems.length
  let startN : Int := if 0 ≤ start then start else max 0 (len + start)
  let stopN : Int := if 0 ≤ stop then stop + 1 else max 0 (len + stop + 1)
  let result := listSlice elems startN.toNat stopN.toNat
  (st, (exceptMapList elemBulk result).map (fun items => encode_array (some items)))

/-- `handle_llen`: `len(store.get(k, []))` (also 2 for a string 2-tuple). -/
def handle_llen (list_key : String) (st : Store) : Store × Except PyErr (List Nat) :=
  let len : Nat :=
    match storeGet st list_key with
    | some (vList l) => l.length
    | some (vTup t) => t.length
    | none => 0
  (st, .ok (encode_integer len))

/-- Cut index for Python's `l[:k]` / `l[k:]` split at `k = etp` (the source's
`elements_to_pop`), covering negative `k` the way CPython slices do. -/
def popCut (len : Nat) (etp : Int) : Nat :=
  if 0 ≤ etp then etp.toNat else ((len : Int) + etp).toNat

/-- `handle_lpop`: empty or missing key replies null; otherwise pop
`min(count, len)` elements (the store is updated — key deleted when the
remainder is empty — before the reply is built, so a reply-time exception
leaves the mutation in place); a single popped element is replied as a bulk,
more as an array, and `popped_elements[0]` on an empty pop raises
`IndexError`.  A stored 2-tuple is truthy and sliceable, so the same flow
applies to it with tuple slices. -/
def handle_lpop (list_key : String) (count : Option Int) (st : Store) :
    Store × Except PyErr (List Nat) :=
  match storeGet st list_key with
  | none => (st, .ok encode_null)
  | some (vList l) =>
    if l.isEmpty then (st, .ok encode_null)
    else
      let c : Int := count.getD 1
      let cut := popCut l.length (min c (l.length : Int))
      let popped := l.take cut
      let remaining := l.drop cut
      let st' := if remaining.isEmpty then storeDel st list_key
                 else storeSet st list_key (vList remaining)
      let reply : Except PyErr (List Nat) :=
        if popped.length > 1 then
          (exceptMapList elemBulk popped).map (fun items => encode_array (some items))
        else
          match popped with
          | [x] => elemBulk x
          | _ => .error .indexError
      (st', reply)
  | some (vTup t) =>
    if t.isEmpty then (st, .ok encode_null)
    else
      let c : Int := count.getD 1
      let cut := popCut t.length (min c (t.length : Int))
      let popped := t.take cut
      let remaining := t.drop cut
      let st' := if remaining.isEmpty then storeDel st list_key
                 else storeSet st list_key (vTup remaining)
      let reply : Except PyErr (List Nat) :=
        if popped.length > 1 then
          (exceptMapList objBulk popped).map (fun items => encode_array (some items))
        else
          match popped with
          | [x] => objBulk x
          | _ => .error .indexError
      (st', reply)

/-- `handle_type`: `none` for a missing key; a list whose head is a 3-tuple
with a dict third component is a `stream`, any other list is a `list`; the
2-tuple (and the fallback) are `string`. -/
def handle_type (key : String) (st : Store) : Store × Except PyErr (List Nat) :=
  match storeGet st key with
  | none => (st, .ok (encode_simple_string "none"))
  | some (vList (elEntry _ _ _ :: _)) => (st, .ok (encode_simple_string "stream"))
  | some (vList _) => (st, .ok (encode_simple_string "list"))
  | some (vTup _) => (st, .ok (encode_simple_string "string"))

/-! ### XADD helpers -/

/-- `last_ms, last_seq, _ = stream[-1]`: unpack the last element of the
stream as a triple, keeping the first two components.  A stored entry yields
`(ms, seq)`; a 3-element parsed list or 3-character string also unpacks;
anything else raises (`ValueError` for wrong arity, `TypeError` for
non-iterables). -/
def lastPair (x : Elem) : Except PyErr (PyObj × PyObj) :=
  match x with
  | elEntry lms lseq _ =>
    .ok (pyInt lms, match lseq with | some s => pyInt s | none => pyNone)
  | elObj (pyList [a, b, _]) => .ok (a, b)
  | elObj (pyList _) => .error (.valueError "unpack")
  | elObj (pyStr s) =>
    match s.data with
    | [c1, c2, _] => .ok (pyStr (String.mk [c1]), pyStr (String.mk [c2]))
    | _ => .error (.valueError "unpack")
  | elObj _ => .error .typeError

/-- Python `n == x` for `int n` against a parsed object: equality across
types is simply `False` (no exception). -/
def pyEqNum (x : PyObj) (n : Int) : Bool :=
  match x with
  | pyInt m => m = n
  | _ => false

/-- Python `x + 1` (`last_seq + 1`): only `int` succeeds. -/
def pyAddOne (x : PyObj) : Except PyErr Int :=
  match x with
  | pyInt m => .ok (m + 1)
  | _ => .error .typeError

/-- Python `n < x` for `int n` against a parsed object (`ms < last_ms`). -/
def numLtPy (n : Int) (x : PyObj) : Except PyErr Bool :=
  match x with
  | pyInt m => .ok (decide (n < m))
  | _ => .error .typeError

/-- Python `seq <= x` where `seq : Optional[int]`
(`command.entry_id_seq <= last_seq`): `None` on either side raises
`TypeError`. -/
def seqLe (seq : Option Int) (x : PyObj) : Except PyErr Bool :=
  match seq, x with
  | some s, pyInt m => .ok (decide (s ≤ m))
  | _, _ => .error .typeError

/-- Python truthiness of `command.entry_id_seq` (`not command.entry_id_seq`):
both `None` and `0` are falsy — this is the sequence-regeneration test of
`handlers.handle_xadd`. -/
def isFalsySeq : Option Int → Bool
  | none => true
  | some n => n == 0

/-- The XADD rejection message of `app/handlers.py` (its `encode_error` call
does not repeat the `ERR` prefix). -/
def xaddOrderMsg : String :=
  "The ID specified in XADD is equal or smaller than the target stream top item"

namespace Handlers

/-- `handlers.handle_xadd`.  The sequence-regeneration block runs whenever
`not command.entry_id_seq` — i.e. the sequence is `None` **or `0`** — so an
explicit `ms-0` ID on a non-empty stream is regenerated instead of being
validated.  On a key holding the string 2-tuple every path raises before the
mutation (`stream[-1]` unpacking, the comparisons, or at the latest
`tuple.append`), so the model collapses those paths to a single exception
(the kind is never observable: the connection loop only closes on it).
Exceptions never mutate the store here — the only mutation is the final
append/assignment — so the body is computed in `Except` and the store
threaded outside. -/
def handle_xadd (stream_key : String) (entry_id_ms : Int)
    (entry_id_seq : Option Int) (fields : List (String × String)) (st : Store) :
    Store × Except PyErr (List Nat) :=
  match storeGet st stream_key with
  | some (vTup _) => (st, .error .typeError)
  | stored =>
    let l : List Elem := match stored with
      | some (vList l) => l
      | _ => []
    let inner : Except PyErr (Store × List Nat) :=
      match l.getLast? with
      | some last => do
        let seq1 ←
          if isFalsySeq entry_id_seq then do
            let (lm, ls) ← lastPair last
            if pyEqNum lm entry_id_ms then (pyAddOne ls).map Option.some
            else pure (some 0)
          else pure entry_id_seq
        let (lm, ls) ← lastPair last
        let lt ← numLtPy entry_id_ms lm
        if lt then pure (st, encode_error xaddOrderMsg)
        else do
          let bad ← if pyEqNum lm entry_id_ms then seqLe seq1 ls else pure false
          if bad then pure (st, encode_error xaddOrderMsg)
          else
            pure (storeSet st stream_key (vList (l ++ [elEntry entry_id_ms seq1 fields])),
              encode_bulk_string (some (intStr entry_id_ms ++ "-" ++ optIntStr seq1)))
      | none =>
        let seq2 : Option Int :=
          if isFalsySeq entry_id_seq then some (if entry_id_ms = 0 then 1 else 0)
          else entry_id_seq
        pure (storeSet st stream_key (vList [elEntry entry_id_ms seq2 fields]),
          encode_bulk_string (some (intStr entry_id_ms ++ "-" ++ optIntStr seq2)))
    match inner with
    | .ok (st', r) => (st', .ok r)
    | .error e => (st, .error e)

end Handlers

namespace Serv

/-- `main.py`'s `handle_xadd`: no sequence generation at all — the parsed
`entry_id_seq` is validated and stored as-is (possibly `None`, in which case
`seq <= last_seq` raises `TypeError` when `ms == last_ms`, and an appended
entry carries `None`, replied as `"ms-None"`).  Its `encode_error` argument
already starts with `ERR `, which `encode_error` prefixes again.  The
tuple-key and exception remarks of `Handlers.handle_xadd` apply. -/
def handle_xadd (stream_key : String) (entry_id_ms : Int)
    (entry_id_seq : Option Int) (fields : List (String × String)) (st : Store) :
    Store × Except PyErr (List Nat) :=
  match storeGet st stream_key with
  | some (vTup _) => (st, .error .typeError)
  | stored =>
    let l : List Elem := match stored with
      | some (vList l) => l
      | _ => []
    let inner : Except PyErr (Store × List Nat) :=
      match l.getLast? with
      | some last => do
        let (lm, ls) ← lastPair last
        let lt ← numLtPy entry_id_ms lm
        if lt then
          pure (st, encode_error ("ERR " ++ xaddOrderMsg))
        else do
          let bad ← if pyEqNum lm entry_id_ms then seqLe entry_id_seq ls else pure false
          if bad then pure (st, encode_error ("ERR " ++ xaddOrderMsg))
          else
            pure (storeSet st stream_key
                (vList (l ++ [elEntry entry_id_ms entry_id_seq fields])),
              encode_bulk_string (some (intStr entry_id_ms ++ "-" ++ optIntStr entry_id_seq)))
      | none =>
        pure (storeSet st stream_key (vList [elEntry entry_id_ms entry_id_seq fields]),
          encode_bulk_string (some (intStr entry_id_ms ++ "-" ++ optIntStr entry_id_seq)))
    match inner with
    | .ok (st', r) => (st', .ok r)
    | .error e => (st, .error e)

end Serv

/-! ### The nonempty-sequence invariant (spec §3) -/

/-- An entry is acceptable when any stored list is non-empty (string
2-tuples are unconstrained). -/
def entryOkB : Val → Bool
  | vList l => !l.isEmpty
  | vTup _ => true

/-- Keyspace invariant: every key holding a list or stream holds a non-empty
one. -/
def StoreInv (st : Store) : Prop := ∀ p ∈ st, entryOkB p.2 = true

instance (st : Store) : Decidable (StoreInv st) :=
  inferInstanceAs (Decidable (∀ p ∈ st, entryOkB p.2 = true))

example :
    Handlers.handle_xadd "s" 5 (some 0) [("f", "v2")]
      [("s", vList [elEntry 5 (some 3) [("f", "v")]])] =
    ([("s", vList [elEntry 5 (some 3) [("f", "v")], elEntry 5 (some 4) [("f", "v2")]])],
      .ok (encode_bulk_string (some "5-4"))) := by decide

example :
    Serv.handle_xadd "s" 5 (some 0) [("f", "v2")]
      [("s", vList [elEntry 5 (some 3) [("f", "v")]])] =
    ([("s", vList [elEntry 5 (some 3) [("f", "v")]])],
      .ok (encode_error ("ERR " ++ xaddOrderMsg))) := by decide

/-! ## Command objects and per-command parsers (`app/commands.py`)

The command dataclasses of `commands.py`/`resp_parser.py` are merged into one
sum type; `CommandError(message)` is the `err` constructor.  A parser whose
body can raise an uncaught exception (propagating to `parse_command`'s
`except Exception`) returns in `Except PyErr`. -/

/-- The command domain (dataclasses of the sources plus `CommandError`). -/
inductive Cmd : Type
  | ping
  | echo (message : String)
  | set (key value : String) (expiry_ms : Option Int)
  | get (key : String)
  | rpush (list_key : String) (values : List PyObj)
  | lpush (list_key : String) (values : List PyObj)
  | lrange (list_key : String) (start stop : Int)
  | llen (list_key : String)
  | lpop (list_key : String) (count : Option Int)
  | blpop (list_key : String) (timeout : PyObj)
  | typeCmd (key : String)
  | xadd (stream_key : String) (entry_id_ms : Int) (entry_id_seq : Option Int)
      (fields : List (String × String))
  | xrange (stream_key : String) (start_id_ms start_id_seq end_id_ms end_id_seq : Option Int)
  | err (message : String)
  deriving DecidableEq, Repr

/-- The arity-error message `f"wrong number of arguments for '{name}' command"`. -/
def wrongArgs (name : String) : String :=
  "wrong number of arguments for " ++ sglq ++ name ++ sglq ++ " command"

/-- The bad-stream-ID message of the sources. -/
def invalidStreamId : String := "Invalid stream ID specified as stream command argument"

namespace Commands

/-- `parse_stream_id(id_str, allow_special)`: specials map to `(None, None)`;
`ms-seq` splits on every `-` (three or more parts is an error); a `*`
sequence is `None`; `int` failures are caught and reported as the
invalid-stream-ID error. -/
def parse_stream_id (id_str : String) (allow_special : Bool) :
    Except String (Option Int × Option Int) :=
  if allow_special && (id_str = "-" || id_str = "+" || id_str = "$") then
    .ok (none, none)
  else if id_str.data.contains '-' then
    match pySplit '-' id_str with
    | [p0, p1] =>
      match strIntParse p0 with
      | .error _ => .error invalidStreamId
      | .ok ms =>
        if p1 = "*" then .ok (some ms, none)
        else
          match strIntParse p1 with
          | .error _ => .error invalidStreamId
          | .ok seq => .ok (some ms, some seq)
    | _ => .error invalidStreamId
  else
    match strIntParse id_str with
    | .error _ => .error invalidStreamId
    | .ok ms => .ok (some ms, none)

/-- `parse_ping`. -/
def parse_ping (args : List PyObj) : Cmd :=
  if args.length > 0 then .err (wrongArgs "ping") else .ping

/-- `parse_echo`. -/
def parse_echo (args : List PyObj) : Cmd :=
  match args with
  | [a0] => .echo (pyStrOf a0)
  | _ => .err (wrongArgs "echo")

/-- `parse_set`: optional `EX`/`PX` expiry when four or more arguments are
given — everything past `args[3]` is never read; exactly three arguments is
a syntax error; `int(args[3])` failures with `ValueError`/`IndexError` are
caught (`TypeError`, e.g. from a null bulk argument, propagates). -/
def parse_set (args : List PyObj) : Except PyErr Cmd :=
  match args with
  | a0 :: a1 :: rest =>
    let key := pyStrOf a0
    let value := pyStrOf a1
    match rest with
    | a2 :: a3 :: _ =>
      let expiry_type := strUpper (pyStrOf a2)
      match pyIntOf a3 with
      | .error (.valueError _) => .ok (.err "invalid expiry value")
      | .error .indexError => .ok (.err "invalid expiry value")
      | .error e => .error e
      | .ok v =>
        if expiry_type = "EX" then .ok (.set key value (some (v * 1000)))
        else if expiry_type = "PX" then .ok (.set key value (some v))
        else .ok (.err ("invalid expiry option: " ++ expiry_type))
    | [_] => .ok (.err "syntax error")
    | [] => .ok (.set key value none)
  | _ => .ok (.err (wrongArgs "set"))

/-- `parse_get`. -/
def parse_get (args : List PyObj) : Cmd :=
  match args with
  | [a0] => .get (pyStrOf a0)
  | _ => .err (wrongArgs "get")

/-- `parse_rpush`: `values = args[1:]` is kept as the raw parsed objects. -/
def parse_rpush (args : List PyObj) : Cmd :=
  match args with
  | a0 :: v1 :: vrest => .rpush (pyStrOf a0) (v1 :: vrest)
  | _ => .err (wrongArgs "rpush")

/-- `parse_lpush`. -/
def parse_lpush (args : List PyObj) : Cmd :=
  match args with
  | a0 :: v1 :: vrest => .lpush (pyStrOf a0) (v1 :: vrest)
  | _ => .err (wrongArgs "lpush")

/-- `parse_lrange`: the arity guard only requires **two** arguments, but the
body reads `args[2]` — with exactly two arguments the subscript raises
`IndexError` (uncaught here), exactly as in both source copies. -/
def parse_lrange (args : List PyObj) : Except PyErr Cmd :=
  if args.length < 2 then .ok (.err (wrongArgs "lrange"))
  else do
    let a0 ← pyGet args 0
    let s ← pyIntOf (← pyGet args 1)
    let e ← pyIntOf (← pyGet args 2)
    .ok (.lrange (pyStrOf a0) s e)

/-- `parse_llen`. -/
def parse_llen (args : List PyObj) : Cmd :=
  match args with
  | [a0] => .llen (pyStrOf a0)
  | _ => .err (wrongArgs "llen")

/-- `parse_lpop`: an optional count must be a positive integer; `ValueError`
from `int` is caught (`TypeError` propagates). -/
def parse_lpop (args : List PyObj) : Except PyErr Cmd :=
  match args with
  | [a0] => .ok (.lpop (pyStrOf a0) none)
  | [a0, a1] =>
    match pyIntOf a1 with
    | .ok c =>
      if c ≤ 0 then .ok (.err "count must be positive")
      else .ok (.lpop (pyStrOf a0) (some c))
    | .error (.valueError _) => .ok (.err "count must be an integer")
    | .error e => .error e
  | _ => .ok (.err (wrongArgs "lpop"))

/-- `parse_blpop`: with a single argument `float(args[1])` raises
`IndexError`.  The `float` conversion itself is not modelled (floating
point); the raw object is carried, and no claim depends on it. -/
def parse_blpop (args : List PyObj) : Except PyErr Cmd :=
  match args with
  | [a0] =>
    let _ := pyStrOf a0
    .error .indexError
  | [a0, a1] => .ok (.blpop (pyStrOf a0) a1)
  | _ => .ok (.err (wrongArgs "blpop"))

/-- `parse_type`. -/
def parse_type (args : List PyObj) : Cmd :=
  match args with
  | [a0] => .typeCmd (pyStrOf a0)
  | _ => .err (wrongArgs "type")

/-- In-place dict write `fields[name] = value` (Python dicts keep the
original insertion position on update). -/
def dictSet (d : List (String × String)) (k v : String) : List (String × String) :=
  match d with
  | [] => [(k, v)]
  | (k', v') :: rest => if k' = k then (k', v) :: rest else (k', v') :: dictSet rest k v

/-- Consecutive pairs `(field_args[i], field_args[i+1])` for
`i in range(0, len, 2)` (callers guarantee even length). -/
def pairUp : List String → List (String × String)
  | f :: v :: rest => (f, v) :: pairUp rest
  | _ => []

/-- The XADD field-pair loop: fold the pairs into a dict, later occurrences
of a name overwriting earlier ones. -/
def buildFields (flat : List String) : List (String × String) :=
  (pairUp flat).foldl (fun acc p => dictSet acc p.1 p.2) []

/-- `parse_xadd`: `*` is replaced by `"{now_ms}-*"` (the clock is passed in
explicitly); the ID must contain `-` and parse as `ms-seq` with an optional
`*` sequence; `0-0` is rejected; the field args must pair up evenly and are
folded into a dict (`str` applied to names and values). -/
def parse_xadd (now : Int) (args : List PyObj) : Cmd :=
  match args with
  | a0 :: a1 :: f1 :: frest =>
    let stream_key := pyStrOf a0
    let entry_id0 := pyStrOf a1
    let entry_id := if entry_id0 = "*" then intStr now ++ "-*" else entry_id0
    if ¬ entry_id.data.contains '-' then .err invalidStreamId
    else
      match parse_stream_id entry_id false with
      | .error m => .err m
      | .ok (ms?, seq) =>
        match ms? with
        | none => .err invalidStreamId
        | some ms =>
          if ms = 0 ∧ seq = some 0 then
            .err "The ID specified in XADD must be greater than 0-0"
          else
            let field_args := f1 :: frest
            if field_args.length % 2 ≠ 0 then .err "wrong number of arguments for XADD"
            else .xadd stream_key ms seq (buildFields (field_args.map pyStrOf))
  | _ => .err (wrongArgs "xadd")

/-- `parse_xrange` (`commands.py` variant, via `parse_stream_id` with
`allow_special=True` for both ends). -/
def parse_xrange (args : List PyObj) : Cmd :=
  match args with
  | [a0, a1, a2] =>
    let stream_key := pyStrOf a0
    match parse_stream_id (pyStrOf a1) true with
    | .error m => .err m
    | .ok (sms, sseq) =>
      match parse_stream_id (pyStrOf a2) true with
      | .error m => .err m
      | .ok (ems, eseq) => .xrange stream_key sms sseq ems eseq
  | _ => .err (wrongArgs "xrange")

end Commands

namespace RESPParser

/-- The inline stream-ID parsing of `resp_parser.py`'s XRANGE branch: the
only special token is `-` for the start (resp. `+` for the end). -/
def parseIdInline (special : String) (id_str : String) :
    Except String (Option Int × Option Int) :=
  if id_str = special then .ok (none, none)
  else if id_str.data.contains '-' then
    match pySplit '-' id_str with
    | [p0, p1] =>
      match strIntParse p0 with
      | .error _ => .error invalidStreamId
      | .ok ms =>
        if p1 = "*" then .ok (some ms, none)
        else
          match strIntParse p1 with
          | .error _ => .error invalidStreamId
          | .ok seq => .ok (some ms, some seq)
    | _ => .error invalidStreamId
  else
    match strIntParse id_str with
    | .error _ => .error invalidStreamId
    | .ok ms => .ok (some ms, none)

/-- The per-command validation chain of `parse_command` in
`app/resp_parser.py` (lines 243–435).  For PING…XADD the inlined bodies
coincide observably with the `commands.py` parsers modelled above, which are
therefore reused; XRANGE differs (inline specials `-`/`+` only) and is
modelled here.  There are **no** XREAD/INCR/MULTI/EXEC branches in this
copy: those names fall through to `unknown command '<NAME>'`. -/
def dispatch (now : Int) (name : String) (args : List PyObj) : Except PyErr Cmd :=
  if name = "PING" then pure (Commands.parse_ping args)
  else if name = "ECHO" then pure (Commands.parse_echo args)
  else if name = "SET" then Commands.parse_set args
  else if name = "GET" then pure (Commands.parse_get args)
  else if name = "RPUSH" then pure (Commands.parse_rpush args)
  else if name = "LPUSH" then pure (Commands.parse_lpush args)
  else if name = "LRANGE" then Commands.parse_lrange args
  else if name = "LLEN" then pure (Commands.parse_llen args)
  else if name = "LPOP" then Commands.parse_lpop args
  else if name = "BLPOP" then Commands.parse_blpop args
  else if name = "TYPE" then pure (Commands.parse_type args)
  else if name = "XADD" then pure (Commands.parse_xadd now args)
  else if name = "XRANGE" then
    match args with
    | [a0, a1, a2] =>
      let stream_key := pyStrOf a0
      match parseIdInline "-" (pyStrOf a1) with
      | .error m => pure (.err m)
      | .ok (sms, sseq) =>
        match parseIdInline "+" (pyStrOf a2) with
        | .error m => pure (.err m)
        | .ok (ems, eseq) => pure (.xrange stream_key sms sseq ems eseq)
    | _ => pure (.err (wrongArgs "xrange"))
  else pure (.err ("unknown command " ++ sglq ++ name ++ sglq))

/-- Body of `parse_command` inside its `try`: decode the frame, require a
non-empty array, upper-case the first element's `str`, dispatch. -/
def parse_command_body (now : Int) (data : List Nat) : Except PyErr Cmd := do
  let result ← parse_resp data
  match result with
  | pyList (h :: args) => dispatch now (strUpper (pyStrOf h)) args
  | _ => pure (.err "Invalid command format")

/-- `parse_command(data)` of `app/resp_parser.py` (the one `main.py` uses):
any exception escaping the body is caught and turned into
`CommandError(f"parsing error: {e}")`.  The XADD branch reads the clock, so
`now` is a parameter. -/
def parse_command (now : Int) (data : List Nat) : Cmd :=
  match parse_command_body now data with
  | .ok c => c
  | .error e => .err ("parsing error: " ++ errStr e)

end RESPParser

example :
    RESPParser.parse_command 0 (strBytes "*1\r\n$4\r\nPING\r\n") = .ping := by decide
example :
    RESPParser.parse_command 0 (strBytes "*1\r\n$4\r\nEXEC\r\n") =
      .err ("unknown command " ++ sglq ++ "EXEC" ++ sglq) := by decide
example :
    RESPParser.parse_command 0 (strBytes "*3\r\n$6\r\nLRANGE\r\n$3\r\nkey\r\n$1\r\n0\r\n") =
      .err "parsing error: list index out of range" := by decide
example :
    RESPParser.parse_command 7
      (strBytes "*5\r\n$4\r\nXADD\r\n$1\r\ns\r\n$3\r\n5-3\r\n$1\r\nf\r\n$1\r\nv\r\n") =
      .xadd "s" 5 (some 3) [("f", "v")] := by decide

/-! ## The connection loop (`handle_connection` in `app/main.py`)

One request/response step: parse the received bytes; a `CommandError` is
replied as `encode_error(message)`; otherwise the matching handler runs.
An exception escaping a handler hits the outer `except` and the connection
is closed (`closed`); a `BLPOP` finding no data suspends on an asyncio queue
(`blocked` — the blocking coordination itself is concurrency and is not
modelled).  An `XRANGE` command has no dispatch branch in `main.py` and
falls through to the `Unknown command` reply. -/

/-- Outcome of one `handle_connection` loop iteration. -/
inductive ConnResult : Type
  | reply (bytes : List Nat)
  | closed
  | blocked
  deriving DecidableEq, Repr

namespace Serv

/-- Wrap a handler result: an ok reply is written back, an exception closes
the connection (with any mutation the handler made before raising kept). -/
def wrap (p : Store × Except PyErr (List Nat)) : Store × ConnResult :=
  (p.1, match p.2 with
    | .ok r => .reply r
    | .error _ => .closed)

/-- One parse-dispatch-reply step of `handle_connection`. -/
def processRequest (now : Int) (data : List Nat) (st : Store) : Store × ConnResult :=
  match RESPParser.parse_command now data with
  | .err m => (st, .reply (encode_error m))
  | .ping => (st, .reply (encode_simple_string "PONG"))
  | .echo m => (st, .reply (encode_bulk_string (some m)))
  | .set k v e => wrap (handle_set now k v e st)
  | .get k => wrap (handle_get now k st)
  | .rpush k vs => wrap (handle_rpush k vs st)
  | .lpush k vs => wrap (handle_lpush k vs st)
  | .lrange k a b => wrap (handle_lrange k a b st)
  | .llen k => wrap (handle_llen k st)
  | .lpop k c => wrap (handle_lpop k c st)
  | .blpop k _ =>
    let emptyOrMissing :=
      match storeGet st k with
      | none => true
      | some (vList l) => l.isEmpty
      | some (vTup t) => t.isEmpty
    if emptyOrMissing then (st, .blocked)
    else
      let (st', r) := handle_lpop k none st
      match r with
      | .ok bytes =>
        (st', .reply (encode_array (some [encode_bulk_string (some k), bytes])))
      | .error _ => (st', .closed)
  | .typeCmd k => wrap (handle_type k st)
  | .xadd k ms seq f => wrap (Serv.handle_xadd k ms seq f st)
  | .xrange _ _ _ _ _ => (st, .reply (encode_error "Unknown command"))

end Serv

example :
    Serv.processRequest 0 (strBytes "*1\r\n$4\r\nEXEC\r\n") [] =
      ([], .reply (strBytes "-ERR unknown command 'EXEC'\r\n")) := by decide
example :
    Serv.processRequest 99 (strBytes "*3\r\n$3\r\nSET\r\n$3\r\nfoo\r\n$3\r\nbar\r\n") [] =
      ([("foo", vTup [pyStr "bar", pyNone])], .reply (strBytes "+OK\r\n")) := by decide

/-! ## Auxiliary definitions used by the claim statements -/

/-- List elements that commands can actually store: pushed strings and
stream entries (used to scope the GET conjunct of claim C2). -/
def goodListElemB : Elem → Bool
  | elObj (pyStr _) => true
  | elEntry _ _ _ => true
  | _ => false

/-- The LRANGE result as the specification words it: normalise a negative
index by adding the length, then take the half-open index range
`[max(start, 0), min(stop + 1, len))` (empty whenever ill-ordered or out of
range). -/
def lrangeSpec (ss : List String) (start stop : Int) : List String :=
  let len : Int := ss.length
  let norm : Int → Int := fun i => if i < 0 then i + len else i
  let lo : Int := max (norm start) 0
  let hi : Int := min (norm stop + 1) len
  (ss.take hi.toNat).drop lo.toNat

/-- Lookup in a field dict (first — and, keys being unique, only —
binding). -/
def fLookup (d : List (String × String)) (k : String) : Option String :=
  match d with
  | [] => none
  | (k', v) :: rest => if k' = k then some v else fLookup rest k

/-- The value of the last occurrence of `name` among field pairs. -/
def lastPairValue : List (String × String) → String → Option String
  | [], _ => none
  | (k, v) :: rest, name =>
    match lastPairValue rest name with
    | some v' => some v'
    | none => if k = name then some v else none

/-- The keyspace operations quantified over by claim C8 (`handlers.py`
variants; `rpush`/`lpush`/`lpop`/`set`/`get` are identical in `main.py`). -/
inductive Op : Type
  | rpush (k : String) (vals : List PyObj)
  | lpush (k : String) (vals : List PyObj)
  | lpop (k : String) (count : Option Int)
  | xadd (k : String) (ms : Int) (seq : Option Int) (fields : List (String × String))
  | set (k v : String) (expiry_ms : Option Int)
  | get (k : String)
  deriving DecidableEq, Repr

/-- Dispatch an operation to its handler. -/
def applyOp (now : Int) : Op → Store → Store × Except PyErr (List Nat)
  | .rpush k vs => handle_rpush k vs
  | .lpush k vs => handle_lpush k vs
  | .lpop k c => handle_lpop k c
  | .xadd k ms seq f => Handlers.handle_xadd k ms seq f
  | .set k v e => handle_set now k v e
  | .get k => handle_get now k

/-- Operation well-formedness guaranteed by the command parsers: RPUSH and
LPUSH always carry at least one value (arity `< 2` is rejected). -/
def opWFB : Op → Bool
  | .rpush _ vs => !vs.isEmpty
  | .lpush _ vs => !vs.isEmpty
  | _ => true

/-! ### Size and ASCII measures on parser values (for the round-trip) -/

mutual

/-- Node count of a parser value (bounds the parse recursion depth). -/
def psizeObj : PyObj → Nat
  | pyList l => 1 + psizeList l
  | _ => 1

/-- Total node count of a list of parser values. -/
def psizeList : List PyObj → Nat
  | [] => 0
  | x :: xs => psizeObj x + psizeList xs

end

mutual

/-- All string payloads of the value are ASCII. -/
def asciiObjB : PyObj → Bool
  | pyStr s => s.data.all fun c => c.toNat < 128
  | pyInt _ => true
  | pyNone => true
  | pyList l => asciiListB l

/-- All string payloads of the listed values are ASCII. -/
def asciiListB : List PyObj → Bool
  | [] => true
  | x :: xs => asciiObjB x && asciiListB xs

end


/-! ## Claim theorems -/

/-- C1: the spec claims XADD with an explicit ID `(ms, seq) ≤ (last_ms,
last_seq)` is rejected with the equal-or-smaller error, **including** an
explicit sequence number of `0`.  The code's regeneration guard
`not command.entry_id_seq` treats an explicit `0` as "missing" (Python
falsiness), regenerates it to `last_seq + 1`, and appends: with top entry
`5-3`, `XADD s 5-0 …` appends an entry with ID `5-4` and replies `"5-4"`
instead of producing the rejection error. -/
theorem c1_xadd_explicit_seq_zero_appended :
    Handlers.handle_xadd "s" 5 (some 0) [("f", "v2")]
        [("s", vList [elEntry 5 (some 3) [("f", "v")]])] =
      ([("s", vList [elEntry 5 (some 3) [("f", "v")], elEntry 5 (some 4) [("f", "v2")]])],
        .ok (encode_bulk_string (some "5-4"))) ∧
    (Handlers.handle_xadd "s" 5 (some 0) [("f", "v2")]
        [("s", vList [elEntry 5 (some 3) [("f", "v")]])]).2 ≠
      .ok (encode_error xaddOrderMsg) := by
  decide

/-- C4: the spec requires the decoder to tolerate binary (non-UTF-8) bulk
payloads.  On the well-formed bulk frame `$2\r\n\xff\xfe\r\n` the decoder's
`payload.decode('utf-8')` raises `UnicodeDecodeError` instead of returning
the two payload bytes. -/
theorem c4_bulk_binary_payload_decode_raises :
    [36, 50, 13, 10, 255, 254, 13, 10] = strBytes "$2\r\n" ++ [255, 254] ++ crlf ∧
    RESPParser.parse_resp [36, 50, 13, 10, 255, 254, 13, 10] = .error .unicodeError := by
  decide

/-- C5 (amended): the server keeps no per-connection transaction state and
its live dispatcher (`resp_parser.parse_command`) has no EXEC branch: for
every keyspace and any clock, receiving `EXEC` falls through to the unknown-
command error, replying `-ERR unknown command 'EXEC'` and leaving the
keyspace unchanged. -/
theorem c5_exec_unknown_command (now : Int) (st : Store) :
    Serv.processRequest now (strBytes "*1\r\n$4\r\nEXEC\r\n") st =
      (st, .reply (encode_error ("unknown command " ++ sglq ++ "EXEC" ++ sglq))) := rfl

/-- C5 (counterexample to the claim as stated): on an idle connection the
reply to `EXEC` is `-ERR unknown command 'EXEC'`, not the claimed
`-ERR EXEC without MULTI`. -/
theorem c5_exec_reply_differs_from_claim :
    Serv.processRequest 0 (strBytes "*1\r\n$4\r\nEXEC\r\n") [] =
      ([], .reply (encode_error ("unknown command " ++ sglq ++ "EXEC" ++ sglq))) ∧
    encode_error ("unknown command " ++ sglq ++ "EXEC" ++ sglq) ≠
      strBytes "-ERR EXEC without MULTI\r\n" := by
  decide

/-- C7: a LRANGE frame with exactly two arguments passes the `len(args) < 2`
arity guard and then subscripts `args[2]`; the resulting `IndexError` is
caught by `parse_command`'s blanket handler as
`parsing error: list index out of range` — not the wrong-number-of-arguments
error the spec prescribes. -/
theorem c7_lrange_missing_stop_parsing_error :
    RESPParser.parse_command 0
        (strBytes "*3\r\n$6\r\nLRANGE\r\n$3\r\nkey\r\n$1\r\n0\r\n") =
      .err "parsing error: list index out of range" ∧
    "parsing error: list index out of range" ≠ wrongArgs "lrange" := by
  decide

/-- C10: a SET frame with four or more arguments whose third argument
upper-cases to `EX` or `PX` and whose fourth parses as an integer parses
successfully, and every argument after the fourth is ignored — the result
does not depend on `rest` at all and no syntax error is produced. -/
theorem c10_set_extra_args_ignored (a0 a1 a2 a3 : PyObj) (rest : List PyObj) (n : Int)
    (hopt : strUpper (pyStrOf a2) = "EX" ∨ strUpper (pyStrOf a2) = "PX")
    (hint : pyIntOf a3 = .ok n) :
    Commands.parse_set (a0 :: a1 :: a2 :: a3 :: rest) =
      .ok (.set (pyStrOf a0) (pyStrOf a1)
        (some (if strUpper (pyStrOf a2) = "EX" then n * 1000 else n))) := by
  rcases hopt with h | h <;> simp [Commands.parse_set, h, hint]

/-- C10 witness: `SET k v px 100 EXTRA JUNK` parses to expiry 100 ms with the
trailing arguments ignored. -/
theorem c10_set_extra_args_ignored_witness :
    strUpper (pyStrOf (pyStr "px")) = "PX" ∧
    pyIntOf (pyStr "100") = .ok 100 ∧
    Commands.parse_set
        [pyStr "k", pyStr "v", pyStr "px", pyStr "100", pyStr "EXTRA", pyStr "JUNK"] =
      .ok (.set (pyStrOf (pyStr "k")) (pyStrOf (pyStr "v"))
        (some (if strUpper (pyStrOf (pyStr "px")) = "EX" then 100 * 1000 else 100))) :=
  ⟨by decide, by decide,
    c10_set_extra_args_ignored (pyStr "k") (pyStr "v") (pyStr "px") (pyStr "100")
      [pyStr "EXTRA", pyStr "JUNK"] 100 (Or.inr (by decide)) (by decide)⟩

/-- C2 (counterexample to the claim as stated): RPUSH on a key holding a
string entry raises `TypeError` (`tuple + list`), closing the connection; it
does not return the `-WRONGTYPE` reply the spec prescribes (the entry is,
however, unchanged). -/
theorem c2_rpush_on_string_key_raises_not_wrongtype :
    handle_rpush "k" [pyStr "a"] [("k", vTup [pyStr "v", pyNone])] =
      ([("k", vTup [pyStr "v", pyNone])], .error .typeError) ∧
    (handle_rpush "k" [pyStr "a"] [("k", vTup [pyStr "v", pyNone])]).2 ≠
      .ok (strBytes
        "-WRONGTYPE Operation against a key holding the wrong kind of value\r\n") := by
  decide

/-- C2 (amended): no `WRONGTYPE` reply exists in the code.  RPUSH on a key
holding a string entry raises `TypeError` before any assignment, leaving the
store unchanged (the connection loop then closes the connection); GET on a
key holding a list or stream of command-storable elements likewise raises
(`ValueError` unpacking a length ≠ 2 list, `TypeError` comparing the second
element to the clock otherwise) without mutating. -/
theorem c2_wrongtype_ops_raise_without_mutating
    (st : Store) (now : Int) (k k2 : String) (t : List PyObj) (vals : List PyObj)
    (l : List Elem)
    (h1 : storeGet st k = some (vTup t))
    (h2 : storeGet st k2 = some (vList l))
    (h3 : ∀ e ∈ l, goodListElemB e = true) :
    handle_rpush k vals st = (st, .error .typeError) ∧
    ∃ er, handle_get now k2 st = (st, .error er) := by
  constructor
  · simp [handle_rpush, h1]
  · rcases l with _ | ⟨v0, _ | ⟨e, _ | ⟨x, rest⟩⟩⟩
    · exact ⟨.valueError "unpack", by simp [handle_get, h2]⟩
    · exact ⟨.valueError "unpack", by simp [handle_get, h2]⟩
    · have hv0 := h3 v0 (by simp)
      have he := h3 e (by simp)
      refine ⟨.typeError, ?_⟩
      rcases v0 with o | ⟨ms0, seq0, f0⟩
      · rcases o with s | n | lo | _ <;> simp [goodListElemB] at hv0
        · rcases e with o2 | ⟨ms2, seq2, f2⟩
          · rcases o2 with s2 | n2 | lo2 | _ <;> simp [goodListElemB] at he
            · simp [handle_get, h2, elemLtNum, pyLtNum]
          · simp [handle_get, h2, elemLtNum]
      · rcases e with o2 | ⟨ms2, seq2, f2⟩
        · rcases o2 with s2 | n2 | lo2 | _ <;> simp [goodListElemB] at he
          · simp [handle_get, h2, elemLtNum, pyLtNum]
        · simp [handle_get, h2, elemLtNum]
    · exact ⟨.valueError "unpack", by simp [handle_get, h2]⟩

/-- C2 witness: a concrete store with a string entry at `"k"` and a
one-element list at `"l"`. -/
theorem c2_wrongtype_ops_raise_without_mutating_witness :
    storeGet [("k", vTup [pyStr "v", pyNone]), ("l", vList [elObj (pyStr "a")])] "k" =
      some (vTup [pyStr "v", pyNone]) ∧
    storeGet [("k", vTup [pyStr "v", pyNone]), ("l", vList [elObj (pyStr "a")])] "l" =
      some (vList [elObj (pyStr "a")]) ∧
    (handle_rpush "k" [pyStr "x"]
        [("k", vTup [pyStr "v", pyNone]), ("l", vList [elObj (pyStr "a")])] =
      ([("k", vTup [pyStr "v", pyNone]), ("l", vList [elObj (pyStr "a")])],
        .error .typeError) ∧
      ∃ er, handle_get 0 "l"
          [("k", vTup [pyStr "v", pyNone]), ("l", vList [elObj (pyStr "a")])] =
        ([("k", vTup [pyStr "v", pyNone]), ("l", vList [elObj (pyStr "a")])], .error er)) :=
  ⟨by decide, by decide,
    c2_wrongtype_ops_raise_without_mutating
      [("k", vTup [pyStr "v", pyNone]), ("l", vList [elObj (pyStr "a")])]
      0 "k" "l" [pyStr "v", pyNone] [pyStr "x"] [elObj (pyStr "a")]
      (by decide) (by decide) (by decide)⟩

/-- Bulk-encoding a list of pushed strings never raises. -/
theorem mapM_elemBulk_strs (ts : List String) :
    exceptMapList elemBulk (ts.map fun s => elObj (pyStr s)) =
      .ok (ts.map fun s => encode_bulk_string (some s)) := by
  induction ts with
  | nil => rfl
  | cons a ts ih => simp [exceptMapList, ih, elemBulk, objBulk]

/-- The slice the handler computes equals the spec's normalised range. -/
theorem lrange_slice_eq (ss : List String) (start stop : Int) :
    listSlice ss
      (if 0 ≤ start then start else max 0 ((ss.length : Int) + start)).toNat
      (if 0 ≤ stop then stop + 1 else max 0 ((ss.length : Int) + stop + 1)).toNat =
    lrangeSpec ss start stop := by
  unfold listSlice lrangeSpec
  have hA : ((if 0 ≤ start then start else max 0 ((ss.length : Int) + start)).toNat) =
      (max (if start < 0 then start + (ss.length : Int) else start) 0).toNat := by
    split_ifs <;> omega
  have hB : ss.take (if 0 ≤ stop then stop + 1
        else max 0 ((ss.length : Int) + stop + 1)).toNat =
      ss.take (min ((if stop < 0 then stop + (ss.length : Int) else stop) + 1)
        (ss.length : Int)).toNat := by
    rw [List.take_eq_take]
    split_ifs <;> omega
  rw [hA, hB]

/-- C6: LRANGE returns exactly the elements of the half-open range
`[max(start', 0), min(stop' + 1, len))` after adding `len` to negative
indices — the handler's normalisation and Python slice agree with that
description on every stored list of strings, including empty and
out-of-range results. -/
theorem c6_lrange_matches_normalised_range (st : Store) (k : String)
    (ss : List String) (start stop : Int)
    (h : storeGet st k = some (vList (ss.map fun s => elObj (pyStr s)))) :
    handle_lrange k start stop st =
      (st, .ok (encode_array (some ((lrangeSpec ss start stop).map
        fun s => encode_bulk_string (some s))))) := by
  simp only [handle_lrange, h, List.length_map]
  rw [show (listSlice (ss.map fun s => elObj (pyStr s))
      (if 0 ≤ start then start else max 0 ((ss.length : Int) + start)).toNat
      (if 0 ≤ stop then stop + 1 else max 0 ((ss.length : Int) + stop + 1)).toNat) =
    ((listSlice ss
      (if 0 ≤ start then start else max 0 ((ss.length : Int) + start)).toNat
      (if 0 ≤ stop then stop + 1 else max 0 ((ss.length : Int) + stop + 1)).toNat).map
        fun s => elObj (pyStr s)) from by
      simp [listSlice, List.map_take, List.map_drop]]
  rw [lrange_slice_eq, mapM_elemBulk_strs]
  rfl

/-- C6 witness: `LRANGE l -2 -1` on `["a", "b", "c"]` returns `["b", "c"]`. -/
theorem c6_lrange_matches_normalised_range_witness :
    storeGet [("l", vList [elObj (pyStr "a"), elObj (pyStr "b"), elObj (pyStr "c")])] "l" =
      some (vList (["a", "b", "c"].map fun s => elObj (pyStr s))) ∧
    handle_lrange "l" (-2) (-1)
        [("l", vList [elObj (pyStr "a"), elObj (pyStr "b"), elObj (pyStr "c")])] =
      ([("l", vList [elObj (pyStr "a"), elObj (pyStr "b"), elObj (pyStr "c")])],
        .ok (encode_array (some ((lrangeSpec ["a", "b", "c"] (-2) (-1)).map
          fun s => encode_bulk_string (some s))))) :=
  ⟨by decide,
    c6_lrange_matches_normalised_range
      [("l", vList [elObj (pyStr "a"), elObj (pyStr "b"), elObj (pyStr "c")])]
      "l" ["a", "b", "c"] (-2) (-1) (by decide)⟩

/-- Looking a name up after a dict write sees the new value for that name
and is unchanged elsewhere. -/
theorem fLookup_dictSet (d : List (String × String)) (k v name : String) :
    fLookup (Commands.dictSet d k v) name =
      if k = name then some v else fLookup d name := by
  induction d with
  | nil => simp [Commands.dictSet, fLookup]
  | cons hd tl ih =>
    rcases hd with ⟨k', v'⟩
    simp only [Commands.dictSet]
    by_cases h1 : k' = k
    · subst h1
      simp only [if_pos rfl, fLookup]
      split_ifs <;> rfl
    · rw [if_neg h1]
      simp only [fLookup, ih]
      by_cases h2 : k' = name
      · have h3 : ¬ (k = name) := fun hh => h1 (h2.trans hh.symm)
        simp [h2, h3]
      · simp [h2]

/-- A dict write keeps the key list unchanged or appends the new key. -/
theorem dictSet_keys (d : List (String × String)) (k v : String) :
    (Commands.dictSet d k v).map Prod.fst = d.map Prod.fst ∨
    (Commands.dictSet d k v).map Prod.fst = d.map Prod.fst ++ [k] ∧
      k ∉ d.map Prod.fst := by
  induction d with
  | nil => right; simp [Commands.dictSet]
  | cons hd tl ih =>
    rcases hd with ⟨k', v'⟩
    by_cases h1 : k' = k
    · subst h1; left; simp [Commands.dictSet]
    · rcases ih with ih | ⟨ih, hk⟩
      · left; simp [Commands.dictSet, if_neg h1, ih]
      · right
        constructor
        · simp [Commands.dictSet, if_neg h1, ih]
        · simp only [List.map_cons, List.mem_cons, not_or]
          exact ⟨fun h => h1 h.symm, hk⟩

/-- A dict write preserves key uniqueness. -/
theorem dictSet_keys_nodup (d : List (String × String)) (k v : String)
    (h : (d.map Prod.fst).Nodup) :
    ((Commands.dictSet d k v).map Prod.fst).Nodup := by
  rcases dictSet_keys d k v with he | ⟨he, hk⟩
  · rw [he]; exact h
  · rw [he]
    simp [List.nodup_append, h, hk]

/-- Folding field pairs into a dict: the lookup of the result is the value of
the last occurrence, falling back to the accumulator. -/
theorem foldl_dictSet_lookup (pairs : List (String × String))
    (acc : List (String × String)) (name : String) :
    fLookup (pairs.foldl (fun acc p => Commands.dictSet acc p.1 p.2) acc) name =
      match lastPairValue pairs name with
      | some v => some v
      | none => fLookup acc name := by
  induction pairs generalizing acc with
  | nil => simp [lastPairValue]
  | cons p rest ih =>
    rcases p with ⟨k, v⟩
    simp only [List.foldl_cons, ih, fLookup_dictSet, lastPairValue]
    rcases hl : lastPairValue rest name with _ | v'
    · simp only [hl]
      split_ifs <;> rfl
    · simp [hl]

/-- Folding field pairs into a dict preserves key uniqueness. -/
theorem foldl_dictSet_nodup (pairs : List (String × String))
    (acc : List (String × String)) (h : (acc.map Prod.fst).Nodup) :
    (((pairs.foldl (fun acc p => Commands.dictSet acc p.1 p.2) acc)).map Prod.fst).Nodup := by
  induction pairs generalizing acc with
  | nil => exact h
  | cons p rest ih => exact ih _ (dictSet_keys_nodup _ _ _ h)

/-- C9: whenever `parse_xadd` succeeds, the entry's field dict binds every
name at most once (unique keys), and each bound name carries the value of
its **last** occurrence among the frame's field-value pairs — earlier
occurrences of a duplicated name are silently discarded. -/
theorem c9_xadd_duplicate_fields_last_wins (now : Int) (args : List PyObj)
    (k : String) (ms : Int) (seq : Option Int) (fields : List (String × String))
    (h : Commands.parse_xadd now args = .xadd k ms seq fields) :
    (fields.map Prod.fst).Nodup ∧
    ∀ name, fLookup fields name =
      lastPairValue (Commands.pairUp ((args.drop 2).map pyStrOf)) name := by
  rcases args with _ | ⟨a0, _ | ⟨a1, _ | ⟨f1, frest⟩⟩⟩ <;>
    simp only [Commands.parse_xadd] at h
  · exact absurd h (by simp)
  · exact absurd h (by simp)
  · exact absurd h (by simp)
  · repeat' split at h
    all_goals try exact Cmd.noConfusion h
    all_goals (
      injection h with h1 h2 h3 h4
      subst h4
      refine ⟨foldl_dictSet_nodup _ _ (by simp), fun name => ?_⟩
      show fLookup (Commands.buildFields ((f1 :: frest).map pyStrOf)) name = _
      rw [Commands.buildFields, foldl_dictSet_lookup]
      have hdrop : (List.drop 2 (a0 :: a1 :: f1 :: frest)).map pyStrOf =
        (f1 :: frest).map pyStrOf := rfl
      rw [hdrop]
      rcases lastPairValue (Commands.pairUp ((f1 :: frest).map pyStrOf)) name with _ | v <;>
        simp [fLookup])

/-- Membership after a store write: an entry of the new store was already
present or is the written binding. -/
theorem mem_storeSet {st : Store} {k : String} {v : Val} {p : String × Val}
    (h : p ∈ storeSet st k v) : p ∈ st ∨ p = (k, v) := by
  induction st with
  | nil =>
    simp [storeSet] at h
    right; exact h
  | cons hd tl ih =>
    rcases hd with ⟨k', v'⟩
    by_cases h1 : k' = k
    · subst h1
      simp only [storeSet, eq_self_iff_true, if_true, List.mem_cons] at h
      rcases h with h | h
      · right; exact h
      · left; exact List.mem_cons_of_mem _ h
    · simp only [storeSet, if_neg h1, List.mem_cons] at h
      rcases h with h | h
      · left; rw [h]; exact List.mem_cons_self _ _
      · rcases ih h with h | h
        · left; exact List.mem_cons_of_mem _ h
        · right; exact h

/-- Membership after a store delete: every remaining entry was present. -/
theorem mem_storeDel {st : Store} {k : String} {p : String × Val}
    (h : p ∈ storeDel st k) : p ∈ st := by
  induction st with
  | nil => simp [storeDel] at h
  | cons hd tl ih =>
    rcases hd with ⟨k', v'⟩
    by_cases h1 : k' = k
    · subst h1
      simp only [storeDel, if_pos rfl] at h
      exact List.mem_cons_of_mem _ h
    · simp only [storeDel, if_neg h1, List.mem_cons] at h
      rcases h with h | h
      · rw [h]; exact List.mem_cons_self _ _
      · exact List.mem_cons_of_mem _ (ih h)

/-- Writing a non-empty list (or a string tuple) preserves the invariant. -/
theorem storeInv_set {st : Store} {k : String} {v : Val}
    (hinv : StoreInv st) (hv : entryOkB v = true) : StoreInv (storeSet st k v) := by
  intro p hp
  rcases mem_storeSet hp with h | rfl
  · exact hinv p h
  · exact hv

/-- Deleting preserves the invariant. -/
theorem storeInv_del {st : Store} {k : String}
    (hinv : StoreInv st) : StoreInv (storeDel st k) :=
  fun p hp => hinv p (mem_storeDel hp)

/-- `handlers.handle_xadd` either leaves the store untouched (exceptions and
rejection replies) or writes a non-empty list at the stream key. -/
theorem xadd_store_shape (k : String) (ms : Int) (seq : Option Int)
    (fields : List (String × String)) (st : Store) :
    (Handlers.handle_xadd k ms seq fields st).1 = st ∨
    ∃ l', (Handlers.handle_xadd k ms seq fields st).1 = storeSet st k (vList l') ∧
      l' ≠ [] := by
  cases hg : storeGet st k with
  | none =>
    simp only [Handlers.handle_xadd, hg]
    right
    exact ⟨_, rfl, by simp⟩
  | some v =>
    cases v with
    | vTup t => simp [Handlers.handle_xadd, hg]
    | vList l =>
      simp only [Handlers.handle_xadd, hg]
      cases hlast : l.getLast? with
      | none =>
        simp only [hlast]
        right
        exact ⟨_, rfl, by simp⟩
      | some last =>
        simp only [hlast, bind, Except.bind, pure, Except.pure]
        split
        case _ st2 r heq =>
          repeat' split at heq
          all_goals try exact Except.noConfusion heq
          all_goals (
            simp only [Except.ok.injEq, Prod.mk.injEq] at heq
            obtain ⟨h1, h2⟩ := heq)
          all_goals first
            | exact Or.inl h1.symm
            | exact Or.inr ⟨_, h1.symm, by simp⟩
        case _ e heq => exact Or.inl rfl

/-- C8: every keyspace operation (RPUSH, LPUSH, LPOP, XADD, SET, GET, with
the argument shapes the parsers guarantee) preserves the invariant that a
stored list or stream is non-empty; in particular an LPOP that empties a
list deletes its key. -/
theorem c8_keyspace_ops_preserve_nonempty_lists (now : Int) (op : Op) (st : Store)
    (hwf : opWFB op = true) (hinv : StoreInv st) :
    StoreInv (applyOp now op st).1 := by
  cases op with
  | rpush k vals =>
    rcases vals with _ | ⟨v0, vs⟩
    · simp [opWFB] at hwf
    · cases hg : storeGet st k with
      | none =>
        simp only [applyOp, handle_rpush, hg]
        exact storeInv_set hinv (by simp [entryOkB])
      | some v =>
        cases v with
        | vTup t =>
          simp only [applyOp, handle_rpush, hg]
          exact hinv
        | vList l =>
          simp only [applyOp, handle_rpush, hg]
          refine storeInv_set hinv ?_
          cases l <;> simp [entryOkB]
  | lpush k vals =>
    rcases vals with _ | ⟨v0, vs⟩
    · simp [opWFB] at hwf
    · cases hg : storeGet st k with
      | none =>
        simp only [applyOp, handle_lpush, hg]
        exact storeInv_set hinv (by simp [entryOkB])
      | some v =>
        cases v with
        | vTup t =>
          simp only [applyOp, handle_lpush, hg]
          exact hinv
        | vList l =>
          simp only [applyOp, handle_lpush, hg]
          refine storeInv_set hinv ?_
          simp [entryOkB]
  | lpop k c =>
    cases hg : storeGet st k with
    | none =>
      simp only [applyOp, handle_lpop, hg]
      exact hinv
    | some v =>
      cases v with
      | vList l =>
        simp only [applyOp, handle_lpop, hg]
        split
        · exact hinv
        · split
          · exact storeInv_del hinv
          · next hr =>
            refine storeInv_set hinv ?_
            simpa [entryOkB] using hr
      | vTup t =>
        simp only [applyOp, handle_lpop, hg]
        split
        · exact hinv
        · split
          · exact storeInv_del hinv
          · exact storeInv_set hinv (by simp [entryOkB])
  | xadd k ms seq fields =>
    rcases xadd_store_shape k ms seq fields st with h | ⟨l', h, hne⟩
    · show StoreInv (Handlers.handle_xadd k ms seq fields st).1
      rw [h]; exact hinv
    · show StoreInv (Handlers.handle_xadd k ms seq fields st).1
      rw [h]
      exact storeInv_set hinv (by simpa [entryOkB] using hne)
  | set k v e =>
    simp only [applyOp, handle_set]
    exact storeInv_set hinv (by simp [entryOkB])
  | get k =>
    cases hg : storeGet st k with
    | none =>
      simp only [applyOp, handle_get, hg]
      exact hinv
    | some v =>
      cases v with
      | vTup t =>
        simp only [applyOp, handle_get, hg]
        repeat' split
        all_goals first
          | exact hinv
          | exact storeInv_del hinv
      | vList l =>
        simp only [applyOp, handle_get, hg]
        repeat' split
        all_goals first
          | exact hinv
          | exact storeInv_del hinv

/-- C8 witness: LPOP on a one-element list removes the key, preserving the
invariant on a store that also holds a stream and a string. -/
theorem c8_keyspace_ops_preserve_nonempty_lists_witness :
    opWFB (.lpop "l" none) = true ∧
    StoreInv [("l", vList [elObj (pyStr "a")]),
      ("s", vList [elEntry 1 (some 1) [("f", "v")]]),
      ("k", vTup [pyStr "v", pyNone])] ∧
    StoreInv (applyOp 0 (.lpop "l" none)
      [("l", vList [elObj (pyStr "a")]),
        ("s", vList [elEntry 1 (some 1) [("f", "v")]]),
        ("k", vTup [pyStr "v", pyNone])]).1 :=
  ⟨by decide, by decide,
    c8_keyspace_ops_preserve_nonempty_lists 0 (.lpop "l" none)
      [("l", vList [elObj (pyStr "a")]),
        ("s", vList [elEntry 1 (some 1) [("f", "v")]]),
        ("k", vTup [pyStr "v", pyNone])]
      (by decide) (by decide)⟩

/-- C9 witness: `XADD s 5-3 f v1 f v2` parses with the field `f` bound once,
to `v2`. -/
theorem c9_xadd_duplicate_fields_last_wins_witness :
    Commands.parse_xadd 0
        [pyStr "s", pyStr "5-3", pyStr "f", pyStr "v1", pyStr "f", pyStr "v2"] =
      .xadd "s" 5 (some 3) [("f", "v2")] ∧
    ((([("f", "v2")] : List (String × String))).map Prod.fst).Nodup ∧
    ∀ name, fLookup [("f", "v2")] name =
      lastPairValue (Commands.pairUp
        ((([pyStr "s", pyStr "5-3", pyStr "f", pyStr "v1", pyStr "f", pyStr "v2"] :
          List PyObj).drop 2).map pyStrOf)) name :=
  ⟨by decide,
    c9_xadd_duplicate_fields_last_wins 0
      [pyStr "s", pyStr "5-3", pyStr "f", pyStr "v1", pyStr "f", pyStr "v2"]
      "s" 5 (some 3) [("f", "v2")] (by decide)⟩

/-! ### Decimal printing/parsing round-trip -/

/-- `Char.ofNat` and `Char.toNat` cancel below the surrogate range. -/
theorem char_toNat_ofNat {m : Nat} (h : m < 0xD800) : (Char.ofNat m).toNat = m := by
  simp [Char.ofNat, Nat.isValidChar, h, Char.ofNatAux, Char.toNat]
  rfl

/-- Fuel irrelevance for the digit printer. -/
theorem natDigitsAux_fuel {f1 f2 n : Nat} (h1 : n < f1) (h2 : n < f2) :
    natDigitsAux f1 n = natDigitsAux f2 n := by
  induction f1 using Nat.strong_induction_on generalizing f2 n with
  | _ f1 ih =>
    match f1, f2 with
    | g1 + 1, g2 + 1 =>
      simp only [natDigitsAux]
      by_cases hn : n < 10
      · simp [hn]
      · simp only [if_neg hn]
        rw [ih g1 (by omega) (show n / 10 < g1 by omega) (show n / 10 < g2 by omega)]

/-- Every printed digit character is an ASCII digit. -/
theorem natDigits_digits {n : Nat} {c : Char} (h : c ∈ natDigits n) :
    48 ≤ c.toNat ∧ c.toNat ≤ 57 := by
  rw [natDigits] at h
  generalize hf : n + 1 = fuel at h
  have hn : n < fuel := by omega
  clear hf
  induction fuel generalizing n with
  | zero => simp [natDigitsAux] at h
  | succ fuel ih =>
    simp only [natDigitsAux] at h
    by_cases h10 : n < 10
    · rw [if_pos h10] at h
      simp only [List.mem_singleton] at h
      subst h
      rw [char_toNat_ofNat (by omega)]
      omega
    · rw [if_neg h10] at h
      rcases List.mem_append.mp h with h | h
      · exact ih h (by omega)
      · simp only [List.mem_singleton] at h
        subst h
        have hlt : n % 10 < 10 := Nat.mod_lt _ (by omega)
        rw [char_toNat_ofNat (by omega)]
        omega

/-- Value computed by the digit-run parser over a printed numeral (with an
accumulator). -/
theorem digitsVal_foldl_natDigitsAux (fuel : Nat) :
    ∀ n a, n < fuel →
      (natDigitsAux fuel n).foldl
        (fun acc c =>
          match acc with
          | none => none
          | some m =>
            if 48 ≤ c.toNat && c.toNat ≤ 57 then some (m * 10 + (c.toNat - 48)) else none)
        (some a) = some (a * 10 ^ (natDigitsAux fuel n).length + n) := by
  induction fuel with
  | zero => intro n a h; omega
  | succ fuel ih =>
    intro n a h
    by_cases h10 : n < 10
    · simp only [natDigitsAux, if_pos h10, List.foldl_cons, List.foldl_nil]
      rw [char_toNat_ofNat (by omega)]
      have hc : (48 ≤ 48 + n && 48 + n ≤ 57) = true := by
        simp only [Bool.and_eq_true, decide_eq_true_eq]
        omega
      simp only [hc, if_true, List.length_singleton, pow_one]
      congr 1
      omega
    · simp only [natDigitsAux, if_neg h10, List.foldl_append]
      rw [ih (n / 10) a (by omega)]
      simp only [List.foldl_cons, List.foldl_nil]
      rw [char_toNat_ofNat (by omega)]
      have hc : (48 ≤ 48 + n % 10 && 48 + n % 10 ≤ 57) = true := by
        simp only [Bool.and_eq_true, decide_eq_true_eq]
        have := Nat.mod_lt n (show 0 < 10 by omega)
        omega
      simp only [hc, if_true, List.length_append, List.length_singleton]
      have hsub : 48 + n % 10 - 48 = n % 10 := by omega
      rw [hsub]
      congr 1
      calc (a * 10 ^ (natDigitsAux fuel (n / 10)).length + n / 10) * 10 + n % 10
          = a * (10 ^ (natDigitsAux fuel (n / 10)).length * 10) +
              (10 * (n / 10) + n % 10) := by ring
        _ = a * 10 ^ ((natDigitsAux fuel (n / 10)).length + 1) + n := by
            rw [Nat.div_add_mod, pow_succ]

/-- The digit printer never prints the empty numeral. -/
theorem natDigits_ne_nil (n : Nat) : natDigits n ≠ [] := by
  rw [natDigits]
  simp only [natDigitsAux]
  split <;> simp

/-- Parsing back a printed natural numeral. -/
theorem digitsVal_natDigits (n : Nat) : digitsVal (natDigits n) = some n := by
  have hne : (natDigits n).isEmpty = false := by
    rcases h : natDigits n with _ | ⟨c, cs⟩
    · exact absurd h (natDigits_ne_nil n)
    · rfl
  unfold digitsVal
  rw [hne]
  simp only [Bool.false_eq_true, if_false, natDigits]
  rw [digitsVal_foldl_natDigitsAux (n + 1) n 0 (by omega)]
  simp

/-- `Char.ofNat` inverts `Char.toNat` on every valid character. -/
theorem char_ofNat_toNat (c : Char) : Char.ofNat c.toNat = c := by
  have hv : Nat.isValidChar c.toNat := c.valid
  apply Char.ext
  rw [Char.ofNat, dif_pos hv]
  rfl

/-- `strIntParse` on a string starting with `-` parses the rest as digits. -/
theorem strIntParse_neg_eq (l : List Char) :
    strIntParse (String.mk ('-' :: l)) =
      match digitsVal l with
      | some m => .ok (-(m : Int))
      | none => .error (.valueError ("invalid literal for int() with base 10: " ++
          sglq ++ String.mk ('-' :: l) ++ sglq)) := rfl

/-- `strIntParse` on a string not starting with a sign parses it as digits. -/
theorem strIntParse_of_head_not_sign {c : Char} {cs : List Char}
    (h1 : c ≠ '-') (h2 : c ≠ '+') :
    strIntParse (String.mk (c :: cs)) =
      match digitsVal (c :: cs) with
      | some m => .ok ((m : Int))
      | none => .error (.valueError ("invalid literal for int() with base 10: " ++
          sglq ++ String.mk (c :: cs) ++ sglq)) := by
  unfold strIntParse
  split
  · next rest heq =>
    simp only [List.cons.injEq] at heq
    exact absurd heq.1 h1
  · next rest heq =>
    simp only [List.cons.injEq] at heq
    exact absurd heq.1 h2
  · rfl

/-- Parsing back a printed integer. -/
theorem strIntParse_intStr (n : Int) : strIntParse (intStr n) = .ok n := by
  by_cases hn : n < 0
  · rw [show intStr n = String.mk ('-' :: natDigits (-n).toNat) from by
      rw [intStr, if_pos hn]]
    rw [strIntParse_neg_eq, digitsVal_natDigits]
    simp only [Except.ok.injEq]
    omega
  · rw [show intStr n = String.mk (natDigits n.toNat) from by rw [intStr, if_neg hn]]
    rcases hd : natDigits n.toNat with _ | ⟨c, cs⟩
    · exact absurd hd (natDigits_ne_nil _)
    · have hc : 48 ≤ c.toNat ∧ c.toNat ≤ 57 :=
        natDigits_digits (hd ▸ List.mem_cons_self c cs)
      have h1 : c ≠ '-' := fun h => by subst h; simp at hc
      have h2 : c ≠ '+' := fun h => by subst h; simp at hc
      rw [strIntParse_of_head_not_sign h1 h2, ← hd, digitsVal_natDigits]
      simp only [Except.ok.injEq]
      omega

/-! ### ASCII byte-level lemmas -/

/-- UTF-8 encoding of an ASCII character list is the character codes. -/
theorem flatMap_utf8_ascii (l : List Char) (h : ∀ c ∈ l, c.toNat < 128) :
    l.flatMap utf8EncodeChar = l.map Char.toNat := by
  induction l with
  | nil => rfl
  | cons c cs ih =>
    have hc := h c (List.mem_cons_self c cs)
    simp only [List.flatMap_cons, List.map_cons,
      ih (fun x hx => h x (List.mem_cons_of_mem _ hx))]
    simp [utf8EncodeChar, hc]

/-- `strBytes` of an ASCII string is the character codes. -/
theorem strBytes_ascii (s : String) (h : ∀ c ∈ s.data, c.toNat < 128) :
    strBytes s = s.data.map Char.toNat :=
  flatMap_utf8_ascii s.data h

/-- Strict UTF-8 decoding inverts encoding on ASCII character codes (fueled
form). -/
theorem utf8DecodeListF_map_toNat (fuel : Nat) :
    ∀ l : List Char, l.length < fuel → (∀ c ∈ l, c.toNat < 128) →
      utf8DecodeListF fuel (l.map Char.toNat) = some l := by
  induction fuel with
  | zero => intro l h _; omega
  | succ fuel ih =>
    intro l hlen h
    cases l with
    | nil => rfl
    | cons c cs =>
      have hc := h c (List.mem_cons_self c cs)
      have hcs : cs.length < fuel := by
        simp only [List.length_cons] at hlen
        omega
      rw [List.map_cons, utf8DecodeListF, if_pos hc,
        ih cs hcs (fun x hx => h x (List.mem_cons_of_mem _ hx))]
      show some (Char.ofNat c.toNat :: cs) = some (c :: cs)
      rw [char_ofNat_toNat]

/-- Strict UTF-8 decoding inverts encoding on ASCII character codes. -/
theorem utf8DecodeList_map_toNat (l : List Char) (h : ∀ c ∈ l, c.toNat < 128) :
    utf8DecodeList (l.map Char.toNat) = some l := by
  rw [utf8DecodeList]
  exact utf8DecodeListF_map_toNat _ l (by simp) h

/-- `utf8Decode` inverts `strBytes` on ASCII strings. -/
theorem utf8Decode_strBytes_ascii (s : String) (h : ∀ c ∈ s.data, c.toNat < 128) :
    utf8Decode (strBytes s) = some s := by
  rw [utf8Decode, strBytes_ascii s h, utf8DecodeList_map_toNat s.data h]
  rfl

/-- `int(bytes)` of character codes is `int(str)` of the characters. -/
theorem bytesIntParse_map_toNat (l : List Char) :
    bytesIntParse (l.map Char.toNat) = strIntParse (String.mk l) := by
  unfold bytesIntParse
  congr 1
  rw [List.map_map]
  congr 1
  calc l.map (Char.ofNat ∘ Char.toNat) = l.map id := by
        apply List.map_congr_left
        intro c _
        exact char_ofNat_toNat c
    _ = l := List.map_id l

/-- Every character printed by `intStr` lies in the ASCII band `[45, 57]`
(`-` and the decimal digits). -/
theorem intStr_chars {n : Int} {c : Char} (h : c ∈ (intStr n).data) :
    45 ≤ c.toNat ∧ c.toNat ≤ 57 := by
  by_cases hn : n < 0
  · rw [show intStr n = String.mk ('-' :: natDigits (-n).toNat) from by
      rw [intStr, if_pos hn]] at h
    rcases List.mem_cons.mp h with h | h
    · subst h; constructor <;> decide
    · have := natDigits_digits h
      omega
  · rw [show intStr n = String.mk (natDigits n.toNat) from by
      rw [intStr, if_neg hn]] at h
    have := natDigits_digits h
    omega

/-- Byte form of `strBytes (intStr n)`: ASCII codes in `[45, 57]`. -/
theorem strBytes_intStr (n : Int) :
    strBytes (intStr n) = (intStr n).data.map Char.toNat :=
  strBytes_ascii _ (fun c hc => by have := intStr_chars hc; omega)

/-! ### Parser-side round-trip lemmas -/

/-- Scanning for the first CRLF past CR-free content finds exactly it. -/
theorem read_until_crlf_spec (content rest : List Nat)
    (h : ∀ b ∈ content, b ≠ 13) :
    RESPParser.read_until_crlf (content ++ 13 :: 10 :: rest) = .ok (content, rest) := by
  induction content with
  | nil => rfl
  | cons b cs ih =>
    have hb : b ≠ 13 := h b (List.mem_cons_self b cs)
    have ih' := ih fun x hx => h x (List.mem_cons_of_mem _ hx)
    cases cs with
    | nil =>
      simp only [List.nil_append, List.cons_append, RESPParser.read_until_crlf]
      rw [if_neg (by simp [hb])]
      simp
    | cons c2 cs2 =>
      simp only [List.cons_append, RESPParser.read_until_crlf] at ih' ⊢
      rw [if_neg (by simp [hb])]
      simp only [List.append_eq]
      rw [ih']

/-- `strBytes` distributes over string append. -/
theorem strBytes_append (a b : String) : strBytes (a ++ b) = strBytes a ++ strBytes b := by
  unfold strBytes
  rw [String.data_append, List.flatMap_append]

/-- Digit characters of a numeral in byte form. -/
theorem strBytes_mk_natDigits (m : Nat) :
    strBytes (String.mk (natDigits m)) = (natDigits m).map Char.toNat :=
  strBytes_ascii _ (fun c hc => by have := natDigits_digits hc; omega)

/-- Byte decomposition of an encoded integer frame (without its type byte):
digit bytes, CRLF. -/
theorem encode_integer_decomp (n : Int) :
    encode_integer n = 58 :: ((intStr n).data.map Char.toNat ++ [13, 10]) := by
  unfold encode_integer
  rw [strBytes_append, strBytes_append, strBytes_intStr]
  rfl

/-- Byte decomposition of an encoded bulk string: `$`, length digits, CRLF,
payload bytes, CRLF. -/
theorem encode_bulk_decomp (s : String) :
    encode_bulk_string (some s) =
      36 :: ((natDigits s.length).map Char.toNat ++
        (13 :: 10 :: (strBytes s ++ [13, 10]))) := by
  show strBytes ("$" ++ String.mk (natDigits s.length) ++ "\r\n" ++ s ++ "\r\n") = _
  rw [strBytes_append, strBytes_append, strBytes_append, strBytes_append,
    strBytes_mk_natDigits]
  rw [show strBytes "$" = [36] from rfl, show strBytes "\r\n" = [13, 10] from rfl]
  show [36] ++ _ ++ [13, 10] ++ strBytes s ++ [13, 10] = _
  simp

/-- Byte decomposition of an encoded array header. -/
theorem encode_array_header_decomp (m : Nat) :
    strBytes ("*" ++ String.mk (natDigits m) ++ "\r\n") =
      42 :: ((natDigits m).map Char.toNat ++ [13, 10]) := by
  rw [strBytes_append, strBytes_append, strBytes_mk_natDigits]
  rfl

/-- Parsing back printed digit bytes. -/
theorem bytesIntParse_natDigits (m : Nat) :
    bytesIntParse ((natDigits m).map Char.toNat) = .ok (m : Int) := by
  rw [bytesIntParse_map_toNat]
  have : String.mk (natDigits m) = intStr (m : Int) := by
    rw [intStr, if_neg (by omega)]
    congr 1
  rw [this, strIntParse_intStr]

/-- Round trip of the integer-frame body. -/
theorem parse_integer_roundtrip (n : Int) (post : List Nat) :
    RESPParser.parse_integer ((intStr n).data.map Char.toNat ++ (13 :: 10 :: post)) =
      .ok (pyInt n, post) := by
  unfold RESPParser.parse_integer
  rw [read_until_crlf_spec _ _ (fun b hb => by
    rcases List.mem_map.mp hb with ⟨c, hc, rfl⟩
    have := intStr_chars hc
    omega)]
  simp only [bind, Except.bind, bytesIntParse_map_toNat]
  rw [show String.mk (intStr n).data = intStr n from rfl, strIntParse_intStr]

/-- Round trip of the bulk-string-frame body for an ASCII payload. -/
theorem parse_bulk_roundtrip (s : String) (post : List Nat)
    (h : ∀ c ∈ s.data, c.toNat < 128) :
    RESPParser.parse_bulk_string ((natDigits s.length).map Char.toNat ++
        (13 :: 10 :: (strBytes s ++ (13 :: 10 :: post)))) =
      .ok (pyStr s, post) := by
  have hpl : (strBytes s).length = s.length := by
    rw [strBytes_ascii s h, List.length_map]
    rfl
  unfold RESPParser.parse_bulk_string
  rw [read_until_crlf_spec _ _ (fun b hb => by
    rcases List.mem_map.mp hb with ⟨c, hc, rfl⟩
    have := natDigits_digits hc
    omega)]
  simp only [bind, Except.bind, bytesIntParse_natDigits]
  rw [if_neg (by omega)]
  rw [if_neg (by
    simp only [List.length_append, List.length_cons, hpl]
    push_cast
    omega)]
  rw [show ((s.length : Int)).toNat = (strBytes s).length from by omega]
  rw [List.take_left, List.drop_left]
  rw [utf8Decode_strBytes_ascii s h]

/-- Every parser value has at least one node. -/
theorem psizeObj_pos (v : PyObj) : 1 ≤ psizeObj v := by
  cases v with
  | pyList l => show 1 ≤ 1 + psizeList l; omega
  | pyStr s => exact Nat.le_refl 1
  | pyInt n => exact Nat.le_refl 1
  | pyNone => exact Nat.le_refl 1

/-- Round trip of the null-bulk frame body. -/
theorem parse_bulk_null (post : List Nat) :
    RESPParser.parse_bulk_string (45 :: 49 :: 13 :: 10 :: post) = .ok (pyNone, post) := by
  show RESPParser.parse_bulk_string ([45, 49] ++ 13 :: 10 :: post) = _
  unfold RESPParser.parse_bulk_string
  rw [read_until_crlf_spec [45, 49] post (by decide)]
  rfl

/-- Parsing an encoded ASCII value with enough fuel consumes exactly its
frame and returns it; `psizeObj` bounds the fuel the parser needs. -/
theorem parse_encodeVal (fuel : Nat) : ∀ (v : PyObj) (post : List Nat),
    asciiObjB v = true → psizeObj v ≤ fuel →
    RESPParser.parse fuel (encodeVal v ++ post) = .ok (v, post) := by
  induction fuel with
  | zero =>
    intro v post _ hs
    exact absurd hs (by have := psizeObj_pos v; omega)
  | succ fuel ih =>
    intro v post ha hs
    cases v with
    | pyStr s =>
      have ha' : ∀ c ∈ s.data, c.toNat < 128 := by
        simp only [asciiObjB, List.all_eq_true, decide_eq_true_eq] at ha
        exact ha
      rw [show encodeVal (pyStr s) = encode_bulk_string (some s) from rfl,
        encode_bulk_decomp]
      simp only [List.cons_append, List.append_assoc, List.nil_append]
      simp only [RESPParser.parse]
      rw [if_pos trivial]
      exact parse_bulk_roundtrip s post ha'
    | pyInt n =>
      rw [show encodeVal (pyInt n) = encode_integer n from rfl, encode_integer_decomp]
      simp only [List.cons_append, List.append_assoc, List.nil_append]
      simp only [RESPParser.parse]
      rw [if_pos trivial]
      exact parse_integer_roundtrip n post
    | pyNone =>
      rw [show encodeVal pyNone ++ post = 36 :: 45 :: 49 :: 13 :: 10 :: post from rfl]
      simp only [RESPParser.parse]
      rw [if_pos trivial]
      exact parse_bulk_null post
    | pyList l =>
      have hA : asciiListB l = true := ha
      have hS : psizeList l ≤ fuel := by
        have h1 : psizeObj (pyList l) = 1 + psizeList l := rfl
        omega
      have hrun : ∀ (m : List PyObj), asciiListB m = true → psizeList m ≤ fuel →
          ∀ q, RESPParser.runMany (fun b => RESPParser.parse fuel b) m.length
            (encodeValList m ++ q) = .ok (m, q) := by
        intro m
        induction m with
        | nil =>
          intro _ _ q
          show RESPParser.runMany _ 0 ([] ++ q) = .ok ([], q)
          rw [List.nil_append]
          rfl
        | cons x xs ihl =>
          intro hA2 hS2 q
          have hax : asciiObjB x = true ∧ asciiListB xs = true := by
            have h2 : asciiListB (x :: xs) = (asciiObjB x && asciiListB xs) := rfl
            rw [h2, Bool.and_eq_true] at hA2
            exact hA2
          have hsx : psizeObj x ≤ fuel ∧ psizeList xs ≤ fuel := by
            have h3 : psizeList (x :: xs) = psizeObj x + psizeList xs := rfl
            rw [h3] at hS2
            exact ⟨by omega, by omega⟩
          show RESPParser.runMany (fun b => RESPParser.parse fuel b) (xs.length + 1)
              ((encodeVal x ++ encodeValList xs) ++ q) = .ok (x :: xs, q)
          simp only [RESPParser.runMany]
          rw [List.append_assoc, ih x (encodeValList xs ++ q) hax.1 hsx.1]
          simp only [bind, Except.bind]
          rw [ihl hax.2 hsx.2 q]
      rw [show encodeVal (pyList l) =
          strBytes ("*" ++ String.mk (natDigits l.length) ++ "\r\n") ++ encodeValList l
          from rfl, encode_array_header_decomp]
      simp only [List.cons_append, List.append_assoc, List.nil_append]
      simp only [RESPParser.parse]
      rw [if_pos trivial]
      rw [read_until_crlf_spec _ _ (fun b hb => by
        rcases List.mem_map.mp hb with ⟨c, hc, rfl⟩
        have := natDigits_digits hc
        omega)]
      simp only [bind, Except.bind, bytesIntParse_natDigits]
      rw [if_neg (by omega)]
      rw [show ((l.length : Int)).toNat = l.length from rfl]
      rw [hrun l hA hS post]
      rw [if_neg (by decide), if_neg (by decide), if_neg (by decide)]
      rw [if_neg (by omega)]

mutual

/-- The node count of a value is at most the byte length of its encoding
(each node contributes at least its type byte). -/
theorem psizeObj_le_len (v : PyObj) : psizeObj v ≤ (encodeVal v).length := by
  cases v with
  | pyStr s =>
    show 1 ≤ (encode_bulk_string (some s)).length
    rw [encode_bulk_decomp]
    simp only [List.length_cons]
    omega
  | pyInt n =>
    show 1 ≤ (encode_integer n).length
    rw [encode_integer_decomp]
    simp only [List.length_cons]
    omega
  | pyNone => decide
  | pyList l =>
    have h1 := psizeList_le_len l
    show 1 + psizeList l ≤
      (strBytes ("*" ++ String.mk (natDigits l.length) ++ "\r\n") ++ encodeValList l).length
    rw [encode_array_header_decomp]
    simp only [List.length_append, List.length_cons]
    omega

/-- The node count of a value list is at most the byte length of the
concatenated encodings. -/
theorem psizeList_le_len (l : List PyObj) : psizeList l ≤ (encodeValList l).length := by
  cases l with
  | nil => exact Nat.le_refl 0
  | cons x xs =>
    have h1 := psizeObj_le_len x
    have h2 := psizeList_le_len xs
    show psizeObj x + psizeList xs ≤ (encodeVal x ++ encodeValList xs).length
    rw [List.length_append]
    omega

end

/-- C3: the spec claims `decode(encode(v)) == v` for all well-formed RESP
values with the bulk length prefix equal to the exact number of payload
bytes.  As amended, the round trip holds for every value all of whose
string payloads are ASCII: parsing the encoding of such a value returns
exactly the value.  (For non-ASCII payloads it fails — `encode_bulk_string`
prefixes `len(s)`, the character count, not the UTF-8 byte count; see the
counterexample theorem.) -/
theorem c3_resp_roundtrip_ascii (v : PyObj) (h : asciiObjB v = true) :
    RESPParser.parse_resp (encodeVal v) = .ok v := by
  have h1 := parse_encodeVal ((encodeVal v).length + 1) v [] h
    (by have := psizeObj_le_len v; omega)
  rw [List.append_nil] at h1
  unfold RESPParser.parse_resp
  rw [h1]
  rfl

/-- C3 counterexample: for the one-character non-ASCII payload `"é"`
(U+00E9, two UTF-8 bytes), the encoded bulk string carries length prefix
`1` — the character count, not the byte count — and decoding the encoding
does not return the value (the parser takes one payload byte, a truncated
UTF-8 sequence). -/
theorem c3_nonascii_bulk_breaks_roundtrip :
    RESPParser.parse_resp (encodeVal (pyStr (String.mk [Char.ofNat 233]))) ≠
      .ok (pyStr (String.mk [Char.ofNat 233])) ∧
    (strBytes (String.mk [Char.ofNat 233])).length ≠
      (String.mk [Char.ofNat 233]).length := by
  decide

theorem c3_resp_roundtrip_ascii_witness :
    asciiObjB (pyList [pyStr "ECHO", pyInt (-42), pyNone, pyList [pyStr "x"]]) = true ∧
    RESPParser.parse_resp (encodeVal
        (pyList [pyStr "ECHO", pyInt (-42), pyNone, pyList [pyStr "x"]])) =
      .ok (pyList [pyStr "ECHO", pyInt (-42), pyNone, pyList [pyStr "x"]]) :=
  ⟨by decide, c3_resp_roundtrip_ascii _ (by decide)⟩
